import Mathlib

set_option maxRecDepth 4000

/-!
# Verification of the ki-essensplaner planning and aggregation pipeline

Shallow embedding of the meal-planner's core modules, translated from the
Python sources:

* `src/scoring/recipe_scorer.py`  (scoring and viability)
* `src/scoring/seasonality.py`    (seasonal calendar)
* `src/agents/models.py`          (weekly plan data model, multi-day prep)
* `src/agents/recipe_search_agent.py` (slot assignment)
* `src/shopping/shopping_list.py` (shopping-list aggregation)

Modelling conventions, used throughout:

* Python floats are idealised as exact rationals (`ℚ`); Python's `round`
  (banker's rounding, round-half-to-even) is modelled exactly by `pyRound`.
* Python `dict`s with string keys are modelled as association lists or
  functions; iteration over a Python `set` (whose order is unspecified) is
  modelled as first-occurrence order of the originating list.
* Fallible paths (`KeyError` on an out-of-range star rating) are modelled
  with `Option`; `none` stands for the raised exception.
* External collaborators (database, scraper, filesystem) are parameters of
  the embedded functions: e.g. the parsed-ingredient table is a function
  `Nat → List ParsedIngredient`.
* `is_in_season`'s `ValueError` for a month outside 1..12 is not modelled;
  theorems whose meaning depends on it carry a `1 ≤ month ∧ month ≤ 12`
  hypothesis.
-/

/-! ## Python-style rounding

`round(x)` in Python rounds half to even (banker's rounding).  `pyRound`
reproduces this on `ℚ`; outside ties it agrees with Mathlib's `round`
(round half up), which is the nearest integer there. -/

/-- Python's `round(x)` on rationals: round half to even. -/
def pyRound (q : ℚ) : ℤ :=
  if q - ⌊q⌋ = 1/2 then (if 2 ∣ ⌊q⌋ then ⌊q⌋ else ⌊q⌋ + 1) else round q

/-- Python's `round(x, 1)`: round to one decimal place (banker's). -/
def pyRoundTo1 (q : ℚ) : ℚ := (pyRound (q * 10) : ℚ) / 10

/-! ## String helpers

Python's `sub in hay` substring test and `str.split()` behaviour. -/

/-- Prefix test on character lists (structural, kernel-reducible). -/
def listIsPrefixOf : List Char → List Char → Bool
  | [], _ => true
  | _ :: _, [] => false
  | a :: as, b :: bs => a = b && listIsPrefixOf as bs

/-- Infix test on character lists (structural, kernel-reducible). -/
def listIsInfixOf : List Char → List Char → Bool
  | n, [] => n.isEmpty
  | n, h :: t => listIsPrefixOf n (h :: t) || listIsInfixOf n t

/-- Python's `needle in hay` on strings (substring containment). -/
def strContains (hay needle : String) : Bool := listIsInfixOf needle.data hay.data

/-- Python's `str.lower()` (ASCII case folding; the German inputs handled
by this program are lowercase at the points where case matters). -/
def String.lowerAscii (s : String) : String := ⟨s.data.map Char.toLower⟩

/-- Python's `str.strip()`. -/
def String.stripWs (s : String) : String :=
  ⟨((s.data.dropWhile Char.isWhitespace).reverse.dropWhile Char.isWhitespace).reverse⟩

/-- Python's `str.split(sep)` for a one-character separator (keeps empty
fields, as Python does). -/
def String.splitChar (s : String) (p : Char → Bool) : List String :=
  (s.data.foldr
    (fun c acc =>
      if p c then [] :: acc
      else match acc with
        | [] => [[c]]
        | g :: gs => (c :: g) :: gs) [[]]).map (fun l => ⟨l⟩)

/-- Python's `s.split()` (split on whitespace, dropping empty fields). -/
def splitWs (s : String) : List String := (s.splitChar Char.isWhitespace).filter (· ≠ "")

/-! ## Seasonality (`src/scoring/seasonality.py`)

The default `SEASONAL_CALENDAR`; the optional external JSON override is a
deployment concern and is not modelled (the embedding corresponds to runs
without `seasonal_ingredients.json`). -/

/-- `SEASONAL_CALENDAR`: German produce and the months it is in season. -/
def SEASONAL_CALENDAR : List (String × List Nat) := [
  ("spargel", [4, 5, 6]),
  ("rhabarber", [4, 5, 6]),
  ("bärlauch", [3, 4, 5]),
  ("radieschen", [4, 5, 6, 7, 8, 9]),
  ("kohlrabi", [5, 6, 7, 8, 9, 10]),
  ("erbse", [6, 7, 8]),
  ("bohne", [7, 8, 9]),
  ("zucchini", [6, 7, 8, 9, 10]),
  ("tomate", [7, 8, 9, 10]),
  ("paprika", [7, 8, 9, 10]),
  ("gurke", [6, 7, 8, 9]),
  ("aubergine", [7, 8, 9, 10]),
  ("mais", [8, 9, 10]),
  ("kürbis", [9, 10, 11, 12]),
  ("hokkaido", [9, 10, 11, 12]),
  ("butternut", [9, 10, 11, 12]),
  ("rosenkohl", [10, 11, 12, 1, 2]),
  ("grünkohl", [11, 12, 1, 2]),
  ("wirsing", [9, 10, 11, 12, 1, 2, 3]),
  ("rotkohl", [9, 10, 11, 12, 1, 2, 3]),
  ("weißkohl", [9, 10, 11, 12, 1, 2, 3]),
  ("chinakohl", [9, 10, 11, 12]),
  ("feldsalat", [10, 11, 12, 1, 2, 3]),
  ("rucola", [5, 6, 7, 8, 9, 10]),
  ("kopfsalat", [5, 6, 7, 8, 9]),
  ("eisbergsalat", [6, 7, 8, 9]),
  ("erdbeere", [5, 6, 7]),
  ("himbeere", [6, 7, 8]),
  ("heidelbeere", [7, 8, 9]),
  ("brombeere", [7, 8, 9]),
  ("johannisbeere", [6, 7, 8]),
  ("stachelbeere", [6, 7]),
  ("kirsche", [6, 7]),
  ("pflaume", [7, 8, 9]),
  ("zwetschge", [8, 9, 10]),
  ("aprikose", [7, 8]),
  ("pfirsich", [7, 8, 9]),
  ("birne", [8, 9, 10, 11]),
  ("apfel", [8, 9, 10, 11, 12, 1, 2, 3]),
  ("quitte", [9, 10, 11]),
  ("traube", [9, 10]),
  ("kartoffel", [1, 2, 3, 4, 5, 6, 7, 8, 9, 10, 11, 12]),
  ("möhre", [1, 2, 3, 4, 5, 6, 7, 8, 9, 10, 11, 12]),
  ("karotte", [1, 2, 3, 4, 5, 6, 7, 8, 9, 10, 11, 12]),
  ("zwiebel", [1, 2, 3, 4, 5, 6, 7, 8, 9, 10, 11, 12]),
  ("knoblauch", [1, 2, 3, 4, 5, 6, 7, 8, 9, 10, 11, 12]),
  ("sellerie", [1, 2, 3, 4, 5, 6, 7, 8, 9, 10, 11, 12]),
  ("lauch", [1, 2, 3, 4, 5, 6, 7, 8, 9, 10, 11, 12]),
  ("porree", [1, 2, 3, 4, 5, 6, 7, 8, 9, 10, 11, 12]),
  ("rote bete", [1, 2, 3, 4, 5, 6, 7, 8, 9, 10, 11, 12]),
  ("pastinake", [10, 11, 12, 1, 2, 3]),
  ("schwarzwurzel", [10, 11, 12, 1, 2, 3]),
  ("topinambur", [10, 11, 12, 1, 2, 3]),
  ("steinpilz", [8, 9, 10, 11]),
  ("pfifferling", [6, 7, 8, 9, 10]),
  ("champignon", [1, 2, 3, 4, 5, 6, 7, 8, 9, 10, 11, 12]),
  ("basilikum", [6, 7, 8, 9]),
  ("dill", [5, 6, 7, 8, 9]),
  ("koriander", [5, 6, 7, 8, 9]),
  ("minze", [5, 6, 7, 8, 9, 10])]

/-- `is_in_season(ingredient, month)`: `some true`/`some false` when the
ingredient is in the calendar, `none` when absent (assumed year-round).
The `ValueError` on a month outside 1..12 is not modelled. -/
def is_in_season (ingredient : String) (month : Nat) : Option Bool :=
  match SEASONAL_CALENDAR.lookup (ingredient.lowerAscii.stripWs) with
  | none => none
  | some months => some (months.contains month)

/-! ## Recipe scorer (`src/scoring/recipe_scorer.py`) -/

/-- `Recipe` (`src/models/recipe.py`), restricted to the fields the scorer,
planner and aggregator read (`source`, `instructions` and the nutrition
numbers other than `calories` are never consulted by the verified core). -/
structure Recipe where
  id : Option Nat
  title : String
  source_url : Option String
  prep_time_minutes : Option Nat
  ingredients : List String
  calories : Option Nat
  servings : Option Nat
deriving DecidableEq, Repr

/-- The user preference profile (`preference_profile.json`), restricted to
the keys the scorer reads: the ordered `base_ingredient` names of
`ingredient_preferences`, the per-(weekday, slot) `avg_prep_time_min`
pattern, and the overall `avg_prep_time_min`. -/
structure Profile where
  ingredient_preferences : List String
  weekday_patterns : String → String → Option ℚ
  overall_avg_prep_time : Option ℚ

/-- `ScoringContext`.  `recipe_ratings` is the ratings dict as a function;
`blacklisted_ids` the set of 1★ recipe ids as a list (membership only). -/
structure ScoringContext where
  weekday : String
  meal_slot : String
  profile : Profile
  available_ingredients : List String
  month : Nat
  recipe_ratings : Nat → Option Nat
  blacklisted_ids : List Nat

/-- `RATING_MULTIPLIERS`; `none` models the `KeyError` a rating outside
1..5 would raise. -/
def RATING_MULTIPLIERS : Nat → Option ℚ
  | 1 => some 0
  | 2 => some (17/20)
  | 3 => some 1
  | 4 => some (11/10)
  | 5 => some (6/5)
  | _ => none

/-- `MIN_OBTAINABLE_RATIO = 0.5`. -/
def minObtainableRatio : ℚ := 1/2

/-- One ingredient of `_get_recipe_base_ingredients`: first base ingredient
from the profile whose name is a substring of the ingredient line (or vice
versa), else the last word of the part before the first comma.  Python
iterates `known_ingredients` (a set); the embedding fixes the iteration
order to the profile's list order. -/
def baseOfIngredient (known : List String) (ing : String) : Option String :=
  let il := ing.lowerAscii.stripWs
  match known.find? (fun k => strContains il k || strContains k il) with
  | some k => some k
  | none =>
    let simplified := ((il.splitChar (· = ',')).headD "").stripWs
    (splitWs simplified).getLast?

/-- `_get_recipe_base_ingredients(recipe, profile)`. -/
def getRecipeBaseIngredients (r : Recipe) (p : Profile) : List String :=
  r.ingredients.filterMap (baseOfIngredient (p.ingredient_preferences.map String.lowerAscii))

/-- The `favorite_ranks` dict: rank of `s` among the lowercased first 30
preferences (later duplicates override earlier ones, as in a Python dict
comprehension). -/
def favoriteRank (prefs : List String) (s : String) : Option Nat :=
  (((prefs.take 30).map String.lowerAscii).enum.filterMap
    (fun p => if p.2 = s then some p.1 else none)).getLast?

/-- The accumulation loop of `_calculate_ingredient_affinity`: total score
and matched favorite ingredients, in recipe order. -/
def affinityFold (ranks : String → Option Nat) : List String → ℚ × List String
  | [] => (0, [])
  | ing :: rest =>
    match ranks ing.lowerAscii with
    | some rank =>
      let t := affinityFold ranks rest
      (100 * (1 - (rank : ℚ)/30) + t.1, ing.lowerAscii :: t.2)
    | none => affinityFold ranks rest

/-- `_calculate_ingredient_affinity(recipe_ingredients, profile)`. -/
def calcIngredientAffinity (ings : List String) (prefs : List String) : ℚ × List String :=
  if ings = [] then (50, [])
  else if prefs = [] then (50, [])
  else
    let t := affinityFold (favoriteRank prefs) ings
    if t.2 = [] then (30, [])
    else
      let avg := t.1 / t.2.length
      let bonus : ℚ := min 20 ((t.2.length : ℚ) * 5)
      (min 100 (avg + bonus), t.2)

/-- `_calculate_time_compatibility(recipe_prep_time, context)`. -/
def calcTimeCompatibility (prep : Option Nat) (slotAvg overallAvg : Option ℚ) : ℚ :=
  match prep with
  | none => 50
  | some t =>
    let e0 := match slotAvg with
      | some e => e
      | none => overallAvg.getD 45
    let e := if e0 = 0 then 45 else e0
    let d := |(t : ℚ) - e| / e
    if d ≤ 1/5 then 100
    else if d ≤ 1/2 then 100 - (d - 1/5) * 166
    else if d ≤ 1 then 50 - (d - 1/2) * 80
    else max 0 (10 - (d - 1) * 10)

/-- `_calculate_bioland_availability(recipe_ingredients, available)`. -/
def calcBiolandAvailability (ings : List String) (available : List String) : ℚ × List String :=
  if ings = [] then (50, [])
  else
    let al := available.map String.lowerAscii
    let availIn := ings.filterMap (fun ing =>
      let il := ing.lowerAscii
      if al.contains il then some il
      else if al.any (fun a => strContains a il || strContains il a) then some il
      else none)
    ((availIn.length : ℚ) / (ings.length : ℚ) * 100, availIn)

/-- `_calculate_seasonality(recipe_ingredients, month)`: every ingredient
is "checked"; `none` (unknown) and `some true` count as in season. -/
def calcSeasonality (ings : List String) (month : Nat) : ℚ × List String :=
  if ings = [] then (100, [])
  else
    let oos := ings.filterMap (fun ing =>
      if is_in_season ing.lowerAscii month = some false then some ing.lowerAscii else none)
    (((ings.length - oos.length : Nat) : ℚ) / (ings.length : ℚ) * 100, oos)

/-- `is_ingredient_obtainable(ingredient, available_ingredients, month)`. -/
def is_ingredient_obtainable (ingredient : String) (available : List String)
    (month : Nat) : Bool :=
  let il := ingredient.lowerAscii
  let al := available.map String.lowerAscii
  if al.contains il then true
  else if al.any (fun a => strContains il a || strContains a il) then true
  else
    match is_in_season il month with
    | none => true
    | some b => b

/-- `get_unobtainable_ingredients(recipe_ingredients, available, month)`. -/
def get_unobtainable_ingredients (ings : List String) (available : List String)
    (month : Nat) : List String :=
  ings.filterMap (fun ing =>
    if is_ingredient_obtainable ing available month then none else some ing.lowerAscii)

/-- The `variations` table of `_is_key_ingredient`. -/
def keyIngredientVariations : List (String × List String) := [
  ("spargel", ["spargel"]),
  ("tomate", ["tomate", "tomaten"]),
  ("kartoffel", ["kartoffel", "kartoffeln"]),
  ("kürbis", ["kürbis", "hokkaido", "butternut"]),
  ("erdbeere", ["erdbeere", "erdbeer"]),
  ("pilz", ["pilz", "pilze", "champignon", "pfifferling"]),
  ("lachs", ["lachs"]),
  ("hähnchen", ["hähnchen", "huhn", "hühnchen", "chicken"]),
  ("rind", ["rind", "beef", "steak"]),
  ("schwein", ["schwein", "pork", "schnitzel"])]

/-- `_is_key_ingredient(ingredient, recipe_title)`: direct substring match
in the title, or a match through the German variations table. -/
def isKeyIngredient (ingredient recipeTitle : String) : Bool :=
  let il := ingredient.lowerAscii
  let tl := recipeTitle.lowerAscii
  if strContains tl il then true
  else
    keyIngredientVariations.any (fun bv =>
      (il = bv.1 || bv.2.any (fun v => strContains il v)) &&
        bv.2.any (fun v => strContains tl v))

/-- `is_recipe_viable(recipe, context, min_obtainable_ratio)`: returns
`(is_viable, unobtainable_ingredients, obtainable_ratio)`. -/
def is_recipe_viable (r : Recipe) (ctx : ScoringContext) (minRatio : ℚ) :
    Bool × List String × ℚ :=
  let blacklisted := match r.id with
    | some i => i ≠ 0 && ctx.blacklisted_ids.contains i
    | none => false
  if blacklisted then (false, ["Vom User ausgeschlossen (1 Stern)"], 0)
  else
    let ings := getRecipeBaseIngredients r ctx.profile
    if ings = [] then (true, [], 1)
    else
      let unobtainable :=
        get_unobtainable_ingredients ings ctx.available_ingredients ctx.month
      let ratio := ((ings.length - unobtainable.length : Nat) : ℚ) / (ings.length : ℚ)
      let keyMissing := unobtainable.any (fun ing => isKeyIngredient ing r.title)
      ((!keyMissing) && decide (minRatio ≤ ratio), unobtainable, ratio)

/-- `ScoreBreakdown`. -/
structure ScoreBreakdown where
  total_score : ℚ
  ingredient_affinity : ℚ
  time_compatibility : ℚ
  bioland_availability : ℚ
  seasonality : ℚ
  reasoning : String
  matched_favorite_ingredients : List String
  available_at_bioland : List String
  out_of_season : List String
  rating_multiplier : ℚ
  user_rating : Option Nat
deriving DecidableEq, Repr

/-- `generate_reasoning(score)`. -/
def generate_reasoning (score : ScoreBreakdown) : String :=
  let ratingReasons : List String :=
    match score.user_rating with
    | some ur =>
      if 4 ≤ ur then
        let urs := toString ur
        [s!"Favorit ({urs} Sterne)"]
      else if ur = 2 then ["Weniger bevorzugt (2 Sterne)"]
      else []
    | none => []
  let affinityReasons : List String :=
    if 80 ≤ score.ingredient_affinity then
      let m := String.intercalate ", " (score.matched_favorite_ingredients.take 3)
      [s!"Enthält Lieblingszutaten ({m})"]
    else if 50 ≤ score.ingredient_affinity then
      if score.matched_favorite_ingredients ≠ [] then ["Enthält einige bevorzugte Zutaten"]
      else []
    else ["Wenige Lieblingszutaten"]
  let timeReasons : List String :=
    if 80 ≤ score.time_compatibility then ["Zubereitungszeit passt perfekt zum Slot"]
    else if 50 ≤ score.time_compatibility then ["Zubereitungszeit ist akzeptabel"]
    else if score.time_compatibility < 30 then ["Zubereitungszeit passt nicht gut zum Slot"]
    else []
  let biolandReasons : List String :=
    if 80 ≤ score.bioland_availability then ["Viele Zutaten bei Bioland verfügbar"]
    else if 50 ≤ score.bioland_availability then ["Einige Zutaten bei Bioland verfügbar"]
    else if score.bioland_availability < 30 then ["Wenige Zutaten bei Bioland verfügbar"]
    else []
  let seasonReasons : List String :=
    if 90 ≤ score.seasonality then ["Alle Zutaten saisonal"]
    else if 70 ≤ score.seasonality then ["Überwiegend saisonal"]
    else if score.out_of_season ≠ [] then
      let o := String.intercalate ", " (score.out_of_season.take 2)
      [s!"Nicht saisonal: {o}"]
    else []
  let reasons :=
    ratingReasons ++ affinityReasons ++ timeReasons ++ biolandReasons ++ seasonReasons
  if reasons ≠ [] then String.intercalate ". " reasons ++ "." else "Keine besonderen Merkmale."

/-- `calculate_score(recipe, context)`.  Returns `none` exactly when the
Python code would raise (a stored star rating outside 1..5). -/
def calculate_score (r : Recipe) (ctx : ScoringContext) : Option ScoreBreakdown :=
  let ings := getRecipeBaseIngredients r ctx.profile
  let aff := calcIngredientAffinity ings ctx.profile.ingredient_preferences
  let time := calcTimeCompatibility r.prep_time_minutes
    (ctx.profile.weekday_patterns ctx.weekday ctx.meal_slot)
    ctx.profile.overall_avg_prep_time
  let bio := calcBiolandAvailability ings ctx.available_ingredients
  let sea := calcSeasonality ings ctx.month
  let total := aff.1 * (2/5) + time * (1/4) + bio.1 * (1/5) + sea.1 * (3/20)
  let rated : Option (Option Nat × ℚ × ℚ) :=
    match r.id with
    | some i =>
      if i ≠ 0 then
        match ctx.recipe_ratings i with
        | some ur =>
          match RATING_MULTIPLIERS ur with
          | some m => some (some ur, m, total * m)
          | none => none
        | none => some (none, 1, total)
      else some (none, 1, total)
    | none => some (none, 1, total)
  match rated with
  | none => none
  | some (ur, m, total') =>
    let sb : ScoreBreakdown := {
      total_score := pyRoundTo1 total'
      ingredient_affinity := pyRoundTo1 aff.1
      time_compatibility := pyRoundTo1 time
      bioland_availability := pyRoundTo1 bio.1
      seasonality := pyRoundTo1 sea.1
      reasoning := ""
      matched_favorite_ingredients := aff.2
      available_at_bioland := bio.2
      out_of_season := sea.2
      rating_multiplier := m
      user_rating := ur }
    some { sb with reasoning := generate_reasoning sb }

/-! ## Weekly plan data model (`src/agents/models.py`)

Python mutates slot objects in place through aliases returned by
`get_slot`; the embedding threads the plan explicitly and updates the
*first* slot matching a (weekday, slot) key, which is exactly the object
`get_slot` aliases.  Mutating methods return `(success, plan')`. -/

/-- `ScoredRecipe` (a dataclass; equality is field-wise, which matters for
the planner's `fav not in slot_recipes` checks). -/
structure ScoredRecipe where
  title : String
  url : Option String
  score : ℚ
  reasoning : String
  is_new : Bool
  recipe_id : Option Nat
  prep_time_minutes : Option Nat
  calories : Option Nat
  ingredients : List String
  servings : Option Nat
deriving DecidableEq, Repr

/-- `SlotRecommendation`. -/
structure SlotRecommendation where
  weekday : String
  slot : String
  recommendations : List ScoredRecipe
  selected_index : Int
  reuse_from : Option (String × String)
  prep_days : Int
deriving DecidableEq, Repr

/-- `SlotRecommendation.is_reuse_slot`. -/
def SlotRecommendation.is_reuse_slot (s : SlotRecommendation) : Bool :=
  s.reuse_from.isSome

/-- `SlotRecommendation.top_recipe`. -/
def SlotRecommendation.top_recipe (s : SlotRecommendation) : Option ScoredRecipe :=
  s.recommendations.head?

/-- `SlotRecommendation.selected_recipe`. -/
def SlotRecommendation.selected_recipe (s : SlotRecommendation) : Option ScoredRecipe :=
  if s.is_reuse_slot then none
  else if s.selected_index < 0 then none
  else if s.selected_index < (s.recommendations.length : Int) then
    s.recommendations[s.selected_index.toNat]?
  else s.top_recipe

/-- `SlotRecommendation.select(index)`. -/
def SlotRecommendation.select (s : SlotRecommendation) (index : Int) :
    Bool × SlotRecommendation :=
  if index = -1 then (true, { s with selected_index := -1 })
  else if 0 ≤ index ∧ index < (s.recommendations.length : Int) then
    (true, { s with selected_index := index })
  else (false, s)

/-- `MultiDayGroup`. -/
structure MultiDayGroup where
  primary_weekday : String
  primary_slot : String
  reuse_slots : List (String × String)
deriving DecidableEq, Repr

/-- `MultiDayGroup.total_days`. -/
def MultiDayGroup.total_days (g : MultiDayGroup) : Nat := 1 + g.reuse_slots.length

/-- `WeeklyRecommendation`. -/
structure WeeklyRecommendation where
  generated_at : String
  week_start : String
  completed_at : Option String
  favorites_count : Int
  new_count : Int
  slots : List SlotRecommendation
  multi_day_groups : List MultiDayGroup
deriving DecidableEq, Repr

/-- `WeeklyRecommendation.get_slot(weekday, slot)`: first match wins. -/
def WeeklyRecommendation.get_slot (p : WeeklyRecommendation) (w s : String) :
    Option SlotRecommendation :=
  p.slots.find? (fun x => x.weekday = w ∧ x.slot = s)

/-- In-place mutation of the slot `get_slot` would return: rewrite the
first slot with the given key. -/
def updateFirstSlot (w s : String) (f : SlotRecommendation → SlotRecommendation) :
    List SlotRecommendation → List SlotRecommendation
  | [] => []
  | x :: xs =>
    if x.weekday = w ∧ x.slot = s then f x :: xs
    else x :: updateFirstSlot w s f xs

/-- `WeeklyRecommendation.set_multi_day(primary_weekday, primary_slot,
reuse_slots)`.  Mirrors the Python statement order: the primary slot's
`prep_days`/`reuse_from` are written first, then each existing reuse slot
is re-pointed (a missing reuse slot is silently skipped — `updateFirstSlot`
is the identity then), then the group list is rewritten. -/
def WeeklyRecommendation.set_multi_day (p : WeeklyRecommendation)
    (pw ps : String) (reuse : List (String × String)) :
    Bool × WeeklyRecommendation :=
  match p.get_slot pw ps with
  | none => (false, p)
  | some _ =>
    let slots1 := updateFirstSlot pw ps
      (fun x => { x with prep_days := 1 + (reuse.length : Int), reuse_from := none })
      p.slots
    let slots2 := reuse.foldl (fun acc ws =>
      updateFirstSlot ws.1 ws.2
        (fun x => { x with reuse_from := some (pw, ps), recommendations := [],
                           prep_days := 1 }) acc) slots1
    let groups :=
      (p.multi_day_groups.filter
        (fun g => ¬(g.primary_weekday = pw ∧ g.primary_slot = ps)))
      ++ [⟨pw, ps, reuse⟩]
    (true, { p with slots := slots2, multi_day_groups := groups })

/-- `_get_reuse_slots_for(weekday, slot)`: reuse list of the first group
with this primary key, `[]` if none. -/
def WeeklyRecommendation.getReuseSlotsFor (p : WeeklyRecommendation) (w s : String) :
    List (String × String) :=
  match p.multi_day_groups.find?
      (fun g => g.primary_weekday = w ∧ g.primary_slot = s) with
  | some g => g.reuse_slots
  | none => []

/-- The group edit in the reuse branch of `clear_multi_day`: in the first
group with primary `(pw, ps)`, drop `(w, s)` from the reuse list, deleting
the group if the list becomes empty; later groups are untouched (Python
`break`s after the first match). -/
def dropReuseFromFirstGroup (pw ps w s : String) :
    List MultiDayGroup → List MultiDayGroup
  | [] => []
  | g :: gs =>
    if g.primary_weekday = pw ∧ g.primary_slot = ps then
      let r := g.reuse_slots.filter (fun x => ¬(x.1 = w ∧ x.2 = s))
      if r = [] then gs else { g with reuse_slots := r } :: gs
    else g :: dropReuseFromFirstGroup pw ps w s gs

/-- `WeeklyRecommendation.clear_multi_day(weekday, slot)`. -/
def WeeklyRecommendation.clear_multi_day (p : WeeklyRecommendation) (w s : String) :
    Bool × WeeklyRecommendation :=
  match p.get_slot w s with
  | none => (false, p)
  | some target =>
    match target.reuse_from with
    | some pwps =>
      let slots1 := updateFirstSlot w s (fun x => { x with reuse_from := none }) p.slots
      let slots2 := updateFirstSlot pwps.1 pwps.2
        (fun x => { x with prep_days := max 1 (x.prep_days - 1) }) slots1
      let groups := dropReuseFromFirstGroup pwps.1 pwps.2 w s p.multi_day_groups
      (true, { p with slots := slots2, multi_day_groups := groups })
    | none =>
      let slots1 := (p.getReuseSlotsFor w s).foldl (fun acc x =>
        updateFirstSlot x.1 x.2 (fun sl => { sl with reuse_from := none }) acc) p.slots
      let slots2 := updateFirstSlot w s (fun x => { x with prep_days := 1 }) slots1
      let groups := p.multi_day_groups.filter
        (fun g => ¬(g.primary_weekday = w ∧ g.primary_slot = s))
      (true, { p with slots := slots2, multi_day_groups := groups })

/-- `WeeklyRecommendation.get_recipe_for_slot(weekday, slot)`. -/
def WeeklyRecommendation.get_recipe_for_slot (p : WeeklyRecommendation) (w s : String) :
    Option ScoredRecipe :=
  match p.get_slot w s with
  | none => none
  | some target =>
    match target.reuse_from with
    | some pwps =>
      match p.get_slot pwps.1 pwps.2 with
      | some primary => primary.selected_recipe
      | none => none
    | none => target.selected_recipe

/-! ## Persisted representation (`to_dict` / `to_json` / `from_dict`)

The persisted form is the JSON produced by `to_dict`; a Python tuple such
as `reuse_from` becomes a JSON *array*, which `from_dict` converts back.
The `*Dict` structures below are the JSON shape (every key `to_dict`
writes is present; `from_dict`'s `.get` defaults only matter for foreign
documents, not for round trips). -/

/-- One recommendation as serialised inside a slot. -/
structure RecipeDict where
  title : String
  url : Option String
  score : ℚ
  reasoning : String
  is_new : Bool
  recipe_id : Option Nat
  prep_time_minutes : Option Nat
  calories : Option Nat
  ingredients : List String
  servings : Option Nat
deriving DecidableEq, Repr

/-- One slot as serialised; `reuse_from` is a JSON array (or null). -/
structure SlotDict where
  weekday : String
  slot : String
  selected_index : Int
  reuse_from : Option (List String)
  prep_days : Int
  recommendations : List RecipeDict
deriving DecidableEq, Repr

/-- One multi-day group as serialised; reuse slots are JSON arrays. -/
structure GroupDict where
  primary_weekday : String
  primary_slot : String
  reuse_slots : List (List String)
deriving DecidableEq, Repr

/-- The full serialised weekly plan. -/
structure PlanDict where
  generated_at : String
  week_start : String
  completed_at : Option String
  favorites_count : Int
  new_count : Int
  multi_day_groups : List GroupDict
  slots : List SlotDict
deriving DecidableEq, Repr

/-- Serialisation of one recommendation (the inner dict of `to_dict`). -/
def toRecipeDict (r : ScoredRecipe) : RecipeDict :=
  { title := r.title
    url := r.url
    score := r.score
    reasoning := r.reasoning
    is_new := r.is_new
    recipe_id := r.recipe_id
    prep_time_minutes := r.prep_time_minutes
    calories := r.calories
    ingredients := r.ingredients
    servings := r.servings }

/-- Serialisation of one slot (the slot dict of `to_dict`, with the JSON
tuple→array conversion of `to_json` applied to `reuse_from`). -/
def toSlotDict (s : SlotRecommendation) : SlotDict :=
  { weekday := s.weekday
    slot := s.slot
    selected_index := s.selected_index
    reuse_from := s.reuse_from.map (fun x => [x.1, x.2])
    prep_days := s.prep_days
    recommendations := s.recommendations.map toRecipeDict }

/-- Serialisation of one multi-day group. -/
def toGroupDict (g : MultiDayGroup) : GroupDict :=
  { primary_weekday := g.primary_weekday
    primary_slot := g.primary_slot
    reuse_slots := g.reuse_slots.map (fun x => [x.1, x.2]) }

/-- `WeeklyRecommendation.to_dict` (composed with the JSON tuple→array
conversion of `to_json`). -/
def WeeklyRecommendation.to_dict (p : WeeklyRecommendation) : PlanDict :=
  { generated_at := p.generated_at
    week_start := p.week_start
    completed_at := p.completed_at
    favorites_count := p.favorites_count
    new_count := p.new_count
    multi_day_groups := p.multi_day_groups.map toGroupDict
    slots := p.slots.map toSlotDict }

/-- `from_dict`'s parse of a serialised `reuse_from`: only a two-element
array yields a pair (the `isinstance(..., list) and len(...) == 2` check). -/
def parseReuseFrom : Option (List String) → Option (String × String)
  | some [a, b] => some (a, b)
  | _ => none

/-- `from_dict`'s parse of one serialised group reuse slot.  Python builds
`tuple(rs)` of whatever length; `to_dict` only ever writes pairs, and
non-pair arrays (which would produce ill-typed tuples downstream in
Python) are collapsed to a dummy pair here. -/
def parseReuseSlot : List String → String × String
  | [a, b] => (a, b)
  | _ => ("", "")

/-- Parse of one recommendation in `from_dict`. -/
def fromRecipeDict (r : RecipeDict) : ScoredRecipe :=
  { title := r.title
    url := r.url
    score := r.score
    reasoning := r.reasoning
    is_new := r.is_new
    recipe_id := r.recipe_id
    prep_time_minutes := r.prep_time_minutes
    calories := r.calories
    ingredients := r.ingredients
    servings := r.servings }

/-- Parse of one slot in `from_dict`. -/
def fromSlotDict (s : SlotDict) : SlotRecommendation :=
  { weekday := s.weekday
    slot := s.slot
    recommendations := s.recommendations.map fromRecipeDict
    selected_index := s.selected_index
    reuse_from := parseReuseFrom s.reuse_from
    prep_days := s.prep_days }

/-- Parse of one multi-day group in `from_dict`. -/
def fromGroupDict (g : GroupDict) : MultiDayGroup :=
  { primary_weekday := g.primary_weekday
    primary_slot := g.primary_slot
    reuse_slots := g.reuse_slots.map parseReuseSlot }

/-- `WeeklyRecommendation.from_dict`. -/
def WeeklyRecommendation.from_dict (d : PlanDict) : WeeklyRecommendation :=
  { generated_at := d.generated_at
    week_start := d.week_start
    completed_at := d.completed_at
    favorites_count := d.favorites_count
    new_count := d.new_count
    slots := d.slots.map fromSlotDict
    multi_day_groups := d.multi_day_groups.map fromGroupDict }

/-! ## Recipe search agent (`src/agents/recipe_search_agent.py`)

The scraping / database steps are I/O collaborators; the pure pipeline
(viability-filtered favorite scoring, slot grouping, and the two-pass slot
assignment) is embedded below. -/

/-- `WEEKDAYS`. -/
def WEEKDAYS : List String :=
  ["Montag", "Dienstag", "Mittwoch", "Donnerstag", "Freitag", "Samstag", "Sonntag"]

/-- `MEAL_SLOTS`. -/
def MEAL_SLOTS : List String := ["Mittagessen", "Abendessen"]

/-- `SlotGroup`. -/
inductive SlotGroup where
  | quick
  | normal
  | elaborate
deriving DecidableEq, Repr

/-- `SLOT_GROUP_MAPPING`. -/
def SLOT_GROUP_MAPPING : List ((String × String) × SlotGroup) := [
  (("Mittwoch", "Mittagessen"), .quick),
  (("Donnerstag", "Mittagessen"), .quick),
  (("Freitag", "Mittagessen"), .quick),
  (("Dienstag", "Abendessen"), .normal),
  (("Mittwoch", "Abendessen"), .normal),
  (("Donnerstag", "Abendessen"), .normal),
  (("Freitag", "Abendessen"), .normal),
  (("Samstag", "Mittagessen"), .normal),
  (("Montag", "Mittagessen"), .elaborate),
  (("Dienstag", "Mittagessen"), .elaborate),
  (("Samstag", "Abendessen"), .elaborate),
  (("Sonntag", "Mittagessen"), .elaborate),
  (("Sonntag", "Abendessen"), .elaborate),
  (("Montag", "Abendessen"), .elaborate)]

/-- `SLOT_GROUP_MAPPING.get((weekday, slot), SlotGroup.NORMAL)`. -/
def slotGroupOf (k : String × String) : SlotGroup :=
  (SLOT_GROUP_MAPPING.lookup k).getD .normal

/-- Appending to a `defaultdict(list)` keyed by slot group, preserving
dict insertion order of the keys. -/
def addToGroups (g : SlotGroup) (k : String × String) :
    List (SlotGroup × List (String × String)) →
      List (SlotGroup × List (String × String))
  | [] => [(g, [k])]
  | (g', l) :: rest =>
    if g' = g then (g', l ++ [k]) :: rest else (g', l) :: addToGroups g k rest

/-- `_get_slot_groups_to_search(None, None)` (full-week generation; the
single-day / single-slot filters are not needed by the verified claims). -/
def slotGroupsToSearch : List (SlotGroup × List (String × String)) :=
  WEEKDAYS.foldl (fun acc w =>
    MEAL_SLOTS.foldl (fun acc2 s => addToGroups (slotGroupOf (w, s)) (w, s) acc2) acc) []

/-- `all_slots` in `run_search_agent` for a full week: the grouped slots,
flattened in group-dict insertion order. -/
def allSlots : List (String × String) :=
  slotGroupsToSearch.foldr (fun g acc => g.2 ++ acc) []

/-- `TARGET_FAVORITES_RATIO = 0.6`. -/
def targetFavoritesShare : ℚ := 3/5

/-- `RECOMMENDATIONS_PER_SLOT = 5`. -/
def RECOMMENDATIONS_PER_SLOT : Nat := 5

/-- `_score_favorites(favorites, context)` without the final sort: filter
by viability, score, add the cook-count bonus.  `none` models a Python
exception escaping from `calculate_score`. -/
def scoreFavoritesRaw (ctx : ScoringContext) :
    List (Recipe × Nat) → Option (List ScoredRecipe)
  | [] => some []
  | (r, cook) :: rest =>
    if (is_recipe_viable r ctx minObtainableRatio).1 = false then
      scoreFavoritesRaw ctx rest
    else
      match calculate_score r ctx with
      | none => none
      | some sb =>
        match scoreFavoritesRaw ctx rest with
        | none => none
        | some tail =>
          let cookBonus : ℚ := min 10 ((cook : ℚ) * 2)
          let cooks := toString cook
          some ({ title := r.title
                  url := r.source_url
                  score := min 100 (sb.total_score + cookBonus)
                  reasoning := s!"{sb.reasoning} Bereits {cooks}x gekocht."
                  is_new := false
                  recipe_id := r.id
                  prep_time_minutes := r.prep_time_minutes
                  calories := r.calories
                  ingredients := r.ingredients
                  servings := none } :: tail)

/-- Stable descending sort by `score` (Python `list.sort(key=score,
reverse=True)`). -/
def sortByScoreDesc (l : List ScoredRecipe) : List ScoredRecipe :=
  l.mergeSort (fun a b => b.score ≤ a.score)

/-- `_score_favorites(favorites, context)`. -/
def score_favorites (favorites : List (Recipe × Nat)) (ctx : ScoringContext) :
    Option (List ScoredRecipe) :=
  (scoreFavoritesRaw ctx favorites).map sortByScoreDesc

/-- First unused favorite: `fav.recipe_id` truthy and not yet used as a
top choice. -/
def findUnusedFav (favs : List ScoredRecipe) (used : List Nat) :
    Option ScoredRecipe :=
  favs.find? (fun f => match f.recipe_id with
    | some i => i ≠ 0 && !used.contains i
    | none => false)

/-- Common shape of the freshness predicates used by the assignment
passes: the key of `f` under `g` is present, passes `v`, and has not been
used yet. -/
def freshBy {α : Type} [BEq α] (g : ScoredRecipe → Option α) (v : α → Bool)
    (used : List α) (f : ScoredRecipe) : Bool :=
  match g f with
  | some i => v i && !used.contains i
  | none => false

/-- The predicate of `findUnusedFav`: truthy recipe id not yet used. -/
def favFresh (used : List Nat) : ScoredRecipe → Bool :=
  freshBy ScoredRecipe.recipe_id (fun i => decide (i ≠ 0)) used

/-- The per-slot url filter of `pickNews`: nonempty url not yet used. -/
def newFresh (used : List String) : ScoredRecipe → Bool :=
  freshBy ScoredRecipe.url (fun u => decide (u ≠ "")) used

/-- Candidates 2..5 of a favorite slot: favorites whose id is unused (or
is the top pick's id — `None` ids count as unused, Python's
`fav.recipe_id not in used_favorite_ids`), skipping duplicates. -/
def buildFavCandidates (used : List Nat) (bestId : Nat) :
    List ScoredRecipe → List ScoredRecipe → List ScoredRecipe
  | [], acc => acc
  | f :: rest, acc =>
    if RECOMMENDATIONS_PER_SLOT ≤ acc.length then acc
    else
      let keep := (match f.recipe_id with
        | none => true
        | some i => !used.contains i) || f.recipe_id = some bestId
      if keep && !acc.contains f then buildFavCandidates used bestId rest (acc ++ [f])
      else buildFavCandidates used bestId rest acc

/-- First pass of `_assign_recipes_to_slots`: walk the slots, assigning
the best unused favorite as top pick until the target is reached (Python
`break`); a slot for which no unused favorite exists is skipped without
breaking. -/
def firstPass (favs : List ScoredRecipe) (target : Nat) :
    List (String × String) → List Nat → Nat → List SlotRecommendation
  | [], _, _ => []
  | (w, s) :: rest, used, assigned =>
    if target ≤ assigned then []
    else
      match findUnusedFav favs used with
      | some best =>
        match best.recipe_id with
        | some bid =>
          let used' := bid :: used
          let cands := buildFavCandidates used' bid favs [best]
          { weekday := w, slot := s,
            recommendations := cands.take RECOMMENDATIONS_PER_SLOT,
            selected_index := 0, reuse_from := none, prep_days := 1 }
            :: firstPass favs target rest used' (assigned + 1)
        | none => firstPass favs target rest used assigned
      | none => firstPass favs target rest used assigned

/-- New-recipe candidates for one second-pass slot: up to 5 new recipes
with a truthy, not-yet-used url; only the *top* pick's url is marked used. -/
def pickNews : List ScoredRecipe → List String → List ScoredRecipe →
    List ScoredRecipe × List String
  | [], used, acc => (acc, used)
  | n :: rest, used, acc =>
    if RECOMMENDATIONS_PER_SLOT ≤ acc.length then (acc, used)
    else
      match n.url with
      | some u =>
        if u ≠ "" && !used.contains u then
          pickNews rest (if acc.isEmpty then u :: used else used) (acc ++ [n])
        else pickNews rest used acc
      | none => pickNews rest used acc

/-- Backfill a second-pass slot with favorites up to 5 candidates. -/
def backfillFavs : List ScoredRecipe → List ScoredRecipe → List ScoredRecipe
  | [], acc => acc
  | f :: rest, acc =>
    if RECOMMENDATIONS_PER_SLOT ≤ acc.length then acc
    else if acc.contains f then backfillFavs rest acc
    else backfillFavs rest (acc ++ [f])

/-- Second pass of `_assign_recipes_to_slots`: fill every slot not taken
in the first pass with new recipes, backfilled by favorites; the used-url
set threads through the whole pass. -/
def secondPass (favs news : List ScoredRecipe)
    (assignedKeys : List (String × String)) :
    List (String × String) → List String → List SlotRecommendation
  | [], _ => []
  | (w, s) :: rest, used =>
    if assignedKeys.contains (w, s) then secondPass favs news assignedKeys rest used
    else
      let picked := pickNews news used []
      { weekday := w, slot := s, recommendations := backfillFavs favs picked.1,
        selected_index := 0, reuse_from := none, prep_days := 1 }
        :: secondPass favs news assignedKeys rest picked.2

/-- `day_order.get(weekday, 99)`. -/
def dayOrder (w : String) : Nat := ((WEEKDAYS.findIdx? (· = w)).getD 99)

/-- `slot_order.get(slot, 99)`. -/
def slotOrder (s : String) : Nat :=
  if s = "Mittagessen" then 0 else if s = "Abendessen" then 1 else 99

/-- Sort predicate of the final `recommendations.sort` (lexicographic on
the (weekday, slot) order key; ties keep input order — Python's sort is
stable, as is `mergeSort`). -/
def slotLe (a b : SlotRecommendation) : Bool :=
  dayOrder a.weekday < dayOrder b.weekday ||
    (dayOrder a.weekday = dayOrder b.weekday && slotOrder a.slot ≤ slotOrder b.slot)

/-- `_assign_recipes_to_slots(slots, favorites, new_recipes, context)`.
`int(total_slots * ratio)` truncates toward zero; for the nonnegative
products that occur this is the floor. -/
def assignRecipesToSlots (slots : List (String × String))
    (favs news : List ScoredRecipe) (share : ℚ) : List SlotRecommendation :=
  let target : Nat := (⌊(slots.length : ℚ) * share⌋).toNat
  let pass1 := firstPass favs target slots [] 0
  let keys := pass1.map (fun r => (r.weekday, r.slot))
  let pass2 := secondPass favs news keys slots []
  (pass1 ++ pass2).mergeSort slotLe

/-- `favorites_count` in `run_search_agent`: slots whose top candidate is
a favorite (`top_recipe` present and not `is_new`). -/
def favoritesCount (recs : List SlotRecommendation) : Nat :=
  recs.countP (fun r => match r.top_recipe with
    | some t => !t.is_new
    | none => false)

/-- `new_count = len(slot_recommendations) - favorites_count`. -/
def newCountOf (recs : List SlotRecommendation) : Nat :=
  recs.length - favoritesCount recs

/-! ## Shopping list (`src/shopping/shopping_list.py`)

The parsed-ingredient database lookup
(`_get_parsed_ingredients_for_recipe`) is an external collaborator and is
passed in as a function `parsedDB : Nat → List ParsedIngredient`. -/

/-- One row of the `parsed_ingredients` table as the aggregator reads it
(`base_ingredient` and `original` are fetched but never used). -/
structure ParsedIngredient where
  amount : Option ℚ
  unit : Option String
  ingredient : String
deriving DecidableEq, Repr

/-- The `unit_mapping` dict of `_normalize_unit`. -/
def unitMapping : List (String × String) := [
  ("g", "gramm"),
  ("kg", "kilogramm"),
  ("ml", "milliliter"),
  ("l", "liter"),
  ("el", "esslöffel"),
  ("tl", "teelöffel"),
  ("essl.", "esslöffel"),
  ("teel.", "teelöffel"),
  ("msp.", "messerspitze"),
  ("prise", "prise"),
  ("stück", "stück"),
  ("stk", "stück"),
  ("bund", "bund"),
  ("zehe", "zehe"),
  ("zehen", "zehe"),
  ("scheibe", "scheibe"),
  ("scheiben", "scheibe")]

/-- `_normalize_unit(unit)` (`None` and `""` are falsy). -/
def normalize_unit (u : Option String) : Option String :=
  match u with
  | none => none
  | some s =>
    if s = "" then none
    else
      let t := s.lowerAscii.stripWs
      some ((unitMapping.lookup t).getD t)

/-- `round_amount(amount, unit)`. -/
def round_amount (amount : ℚ) (unit : Option String) : ℚ :=
  if unit = some "gramm" ∨ unit = some "milliliter" then
    ((pyRound (amount / 10) * 10 : ℤ) : ℚ)
  else if unit = some "stück" ∨ unit = some "scheibe" then
    ((max 1 (pyRound amount) : ℤ) : ℚ)
  else if unit = some "esslöffel" ∨ unit = some "teelöffel" then
    ((pyRound (amount * 2) : ℤ) : ℚ) / 2
  else pyRoundTo1 amount

/-- Python's `round(x, 2)` (used for the transparency `factor`). -/
def pyRoundTo2 (q : ℚ) : ℚ := (pyRound (q * 100) : ℚ) / 100

/-- `ShoppingItem`. -/
structure ShoppingItem where
  ingredient : String
  amount : Option ℚ
  unit : Option String
  recipes : List String
deriving DecidableEq, Repr

/-- One `scale_info` entry. -/
structure ScaleInfo where
  slot_label : String
  recipe : String
  original_servings : Nat
  scaled_to : Nat
  prep_days : Int
  factor : ℚ
deriving DecidableEq, Repr

/-- One `multi_day_info` entry. -/
structure MultiDayInfo where
  recipe : String
  cook_on : String
  eat_on : List String
  total_days : Nat
  multiplier : ℚ
deriving DecidableEq, Repr

/-- `ShoppingList`. -/
structure ShoppingList where
  items : List ShoppingItem
  week_start : String
  recipe_count : Nat
  household_size : Nat
  scale_info : List ScaleInfo
  multi_day_info : List MultiDayInfo
deriving DecidableEq, Repr

/-- The value type of the aggregation `defaultdict`. -/
structure AggEntry where
  amount : ℚ
  recipes : List String
  has_amount : Bool
deriving DecidableEq, Repr

/-- The key → entry insertion-ordered dict; a missing key is created at
the end with the defaultdict default (`amount 0`, no recipes, no amount). -/
def aggUpdate (key : String × Option String) (f : AggEntry → AggEntry) :
    List ((String × Option String) × AggEntry) →
      List ((String × Option String) × AggEntry)
  | [] => [(key, f { amount := 0, recipes := [], has_amount := false })]
  | (k, e) :: rest =>
    if k = key then (k, f e) :: rest else (k, e) :: aggUpdate key f rest

/-- The per-parsed-ingredient body of the aggregation loop.  Note that the
label-membership test accesses `aggregated[key]` and therefore creates the
entry even when no amount is added. -/
def processParsed (label : String) (factor : ℚ)
    (agg : List ((String × Option String) × AggEntry)) (p : ParsedIngredient) :
    List ((String × Option String) × AggEntry) :=
  let key := (p.ingredient, normalize_unit p.unit)
  let agg1 := match p.amount with
    | some a =>
      if a ≠ 0 then
        aggUpdate key (fun e =>
          { e with amount := e.amount + a * factor, has_amount := true }) agg
      else aggUpdate key id agg
    | none => aggUpdate key id agg
  aggUpdate key (fun e =>
    if e.recipes.contains label then e else { e with recipes := e.recipes ++ [label] })
    agg1

/-- The fallback body for a recipe without a database entry: raw
ingredient strings, lowercased, unit-less, amount-less (this also resets
`has_amount` on an existing key, as the Python assignment does). -/
def processRawIngredient (label : String)
    (agg : List ((String × Option String) × AggEntry)) (ing : String) :
    List ((String × Option String) × AggEntry) :=
  let key := (ing.lowerAscii, (none : Option String))
  let agg1 := aggUpdate key (fun e => { e with has_amount := false }) agg
  aggUpdate key (fun e =>
    if e.recipes.contains label then e else { e with recipes := e.recipes ++ [label] })
    agg1

/-- `recipe_label` for a slot: the slot itself plus, for multi-day
primaries, the reuse slots of every matching group. -/
def recipeLabel (plan : WeeklyRecommendation) (slot : SlotRecommendation) : String :=
  let w := slot.weekday
  let sl := slot.slot
  let own := s!"{w} {sl}"
  if 1 < slot.prep_days then
    let extra := (plan.multi_day_groups.filter
        (fun g => g.primary_weekday = w ∧ g.primary_slot = sl)).foldr
      (fun g acc => g.reuse_slots.map (fun x =>
        let xw := x.1
        let xs := x.2
        s!"{xw} {xs}") ++ acc) []
    String.intercalate " + " (own :: extra)
  else own

/-- The state threaded through the slot loop of `generate_shopping_list`. -/
structure AggState where
  agg : List ((String × Option String) × AggEntry)
  recipe_count : Nat
  scale_info : List ScaleInfo
deriving DecidableEq, Repr

/-- The per-slot body of `generate_shopping_list`'s main loop. -/
def processSlot (plan : WeeklyRecommendation) (household : Nat)
    (parsedDB : Nat → List ParsedIngredient) (st : AggState)
    (slot : SlotRecommendation) : AggState :=
  if slot.is_reuse_slot then st
  else
    match slot.selected_recipe with
    | none => st
    | some recipe =>
      let recipeServings : Nat := match recipe.servings with
        | none => 2
        | some 0 => 2
        | some s => s
      let householdFactor : ℚ := (household : ℚ) / (recipeServings : ℚ)
      let totalFactor : ℚ := householdFactor * (slot.prep_days : ℚ)
      let label := recipeLabel plan slot
      let entry : ScaleInfo :=
        { slot_label := label
          recipe := recipe.title
          original_servings := recipeServings
          scaled_to := household
          prep_days := slot.prep_days
          factor := pyRoundTo2 totalFactor }
      let scale' :=
        if recipeServings ≠ household ∨ 1 < slot.prep_days then st.scale_info ++ [entry]
        else st.scale_info
      match recipe.recipe_id with
      | some rid =>
        if rid ≠ 0 then
          { agg := (parsedDB rid).foldl (processParsed label totalFactor) st.agg
            recipe_count := st.recipe_count + 1
            scale_info := scale' }
        else if recipe.ingredients ≠ [] then
          { agg := recipe.ingredients.foldl (processRawIngredient label) st.agg
            recipe_count := st.recipe_count + 1
            scale_info := scale' }
        else { st with scale_info := scale' }
      | none =>
        if recipe.ingredients ≠ [] then
          { agg := recipe.ingredients.foldl (processRawIngredient label) st.agg
            recipe_count := st.recipe_count + 1
            scale_info := scale' }
        else { st with scale_info := scale' }

/-- `generate_shopping_list(plan, household_size)`. -/
def generate_shopping_list (plan : WeeklyRecommendation) (household : Nat)
    (parsedDB : Nat → List ParsedIngredient) : ShoppingList :=
  let st := plan.slots.foldl (processSlot plan household parsedDB)
    { agg := [], recipe_count := 0, scale_info := [] }
  let items := st.agg.map (fun ke =>
    { ingredient := ke.1.1
      amount := if ke.2.has_amount then some (round_amount ke.2.amount ke.1.2) else none
      unit := ke.1.2
      recipes := ke.2.recipes })
  let mdi := plan.multi_day_groups.filterMap (fun g =>
    match plan.get_recipe_for_slot g.primary_weekday g.primary_slot with
    | some r =>
      let pw := g.primary_weekday
      let ps := g.primary_slot
      let cook := s!"{pw} {ps}"
      some { recipe := r.title, cook_on := cook,
             eat_on := cook :: g.reuse_slots.map (fun x =>
               let xw := x.1
               let xs := x.2
               s!"{xw} {xs}"),
             total_days := g.total_days, multiplier := ((g.total_days : ℚ)) }
    | none => none)
  { items := items, week_start := plan.week_start, recipe_count := st.recipe_count,
    household_size := household, scale_info := st.scale_info, multi_day_info := mdi }

/-! ## Concrete scenarios

Named instances used by counterexamples and witnesses below. -/

/-- A profile with no data at all. -/
def bareProfile : Profile := ⟨[], fun _ _ => none, none⟩

/-- A context with no shop stock, no ratings, month fixed to May. -/
def bareContext : ScoringContext :=
  ⟨"Montag", "Abendessen", bareProfile, [], 5, fun _ => none, []⟩

/-- Profile that makes every sub-score of `fiveStarRecipe` reach 100:
`reis` is the top preference and the Monday-dinner slot expects 45 min. -/
def fiveStarProfile : Profile :=
  ⟨["reis"], fun w s => if w = "Montag" ∧ s = "Abendessen" then some 45 else none, none⟩

/-- Context for `fiveStarRecipe`: `reis` in stock, recipe 1 rated 5★. -/
def fiveStarContext : ScoringContext :=
  ⟨"Montag", "Abendessen", fiveStarProfile, ["reis"], 5,
    fun i => if i = 1 then some 5 else none, []⟩

/-- A rice recipe matching `fiveStarProfile` perfectly. -/
def fiveStarRecipe : Recipe := ⟨some 1, "Reispfanne", none, some 45, ["reis"], none, none⟩

/-- Squash-soup recipe: base ingredients `hokkaido` (out of season in May,
not in the title) and `kartoffel` (year-round). -/
def butternutRecipe : Recipe :=
  ⟨none, "Butternut Suppe", none, none, ["hokkaido", "kartoffel"], none, none⟩

/-- A plan with a single slot and no groups. -/
def oneSlotPlan : WeeklyRecommendation :=
  ⟨"g", "w", none, 0, 0, [⟨"Montag", "Mittagessen", [], 0, none, 1⟩], []⟩

/-- A plan with no slots at all. -/
def emptyPlan : WeeklyRecommendation := ⟨"g", "w", none, 0, 0, [], []⟩

/-- A selected rice recipe for the shopping scenario (id 7, 4 servings). -/
def reisScored : ScoredRecipe :=
  ⟨"Reisgericht", none, 0, "", false, some 7, none, none, [], some 4⟩

/-- One-slot plan cooking `reisScored` once. -/
def reisPlanOneDay : WeeklyRecommendation :=
  ⟨"g", "w", none, 0, 0, [⟨"Montag", "Abendessen", [reisScored], 0, none, 1⟩], []⟩

/-- One-slot plan cooking `reisScored` for three days. -/
def reisPlanThreeDays : WeeklyRecommendation :=
  ⟨"g", "w", none, 0, 0, [⟨"Montag", "Abendessen", [reisScored], 0, none, 3⟩], []⟩

/-- Parsed-ingredient table: recipe 7 is "200 gramm reis". -/
def reisParsedDB : Nat → List ParsedIngredient :=
  fun i => if i = 7 then [⟨some 200, some "gramm", "reis"⟩] else []

/-- A favorite with the given id (score 90). -/
def mkFav (i : Nat) : ScoredRecipe :=
  ⟨s!"F{i}", none, 90, "", false, some i, none, none, [], none⟩

/-- A new recipe with a distinct url (score 80). -/
def mkNew (i : Nat) : ScoredRecipe :=
  ⟨s!"N{i}", some s!"http://n{i}", 80, "", true, none, none, none, [], none⟩

/-- Exactly one viable favorite. -/
def oneFavorite : List ScoredRecipe := [mkFav 1]

/-- Thirteen distinct new recipes. -/
def thirteenNews : List ScoredRecipe := (List.range 13).map mkNew

/-- A non-reuse slot with an empty candidate list and stored index 5. -/
def emptySlotIdxFive : SlotRecommendation := ⟨"Montag", "Abendessen", [], 5, none, 1⟩

/-- A non-reuse slot with one candidate and stored index 5. -/
def oneCandidateIdxFive : SlotRecommendation :=
  ⟨"Montag", "Abendessen", [reisScored], 5, none, 1⟩

/-- Three-slot plan for the multi-day round-trip scenario. -/
def threeSlotPlan : WeeklyRecommendation :=
  ⟨"g", "w", none, 0, 0,
    [⟨"Montag", "Abendessen", [reisScored], 0, none, 1⟩,
     ⟨"Dienstag", "Abendessen", [], 0, none, 1⟩,
     ⟨"Mittwoch", "Abendessen", [], 0, none, 1⟩], []⟩

/-- `is_recipe_viable` as the spec's §4.1 sentence words it, for
comparison with the code: "viable exactly when no unobtainable
ingredient's name appears in the recipe title AND the obtainable ratio is
at least 0.5" (appearance read case-insensitively, as everywhere in the
scorer).  Modelled from the spec, not from the code. -/
def specWordedViable (r : Recipe) (ctx : ScoringContext) : Bool :=
  let ings := getRecipeBaseIngredients r ctx.profile
  let unobtainable := get_unobtainable_ingredients ings ctx.available_ingredients ctx.month
  let ratio := ((ings.length - unobtainable.length : Nat) : ℚ) / (ings.length : ℚ)
  (!unobtainable.any (fun ing => strContains r.title.lowerAscii ing.lowerAscii)) &&
    decide (minObtainableRatio ≤ ratio)

/-- The breakdown actually computed for the five-star scenario. -/
def fiveStarScore : ScoreBreakdown :=
  (calculate_score fiveStarRecipe fiveStarContext).getD
    ⟨0, 0, 0, 0, 0, "", [], [], [], 1, none⟩

/-- A trivially viable favorite recipe (id 2, no ingredients). -/
def breadRecipe : Recipe := ⟨some 2, "Brot", none, none, [], none, none⟩

/-- Context in which recipe 9 is rated 1★ and blacklisted. -/
def blacklistContext : ScoringContext :=
  ⟨"Montag", "Abendessen", bareProfile, [], 5,
    fun i => if i = 9 then some 1 else none, [9]⟩

/-- The scored favorites computed from `breadRecipe`. -/
def breadFavorites : List ScoredRecipe :=
  (score_favorites [(breadRecipe, 1)] blacklistContext).getD []

/-- The single slot the pipeline fills in the blacklist scenario. -/
def breadAssignedSlot : SlotRecommendation :=
  (assignRecipesToSlots [("Montag", "Mittagessen")] breadFavorites []
    targetFavoritesShare).headD ⟨"", "", [], 0, none, 1⟩

/-- Its top candidate. -/
def breadCandidate : ScoredRecipe :=
  breadAssignedSlot.recommendations.headD
    ⟨"", none, 0, "", true, none, none, none, [], none⟩

/-- Eight favorites with distinct truthy ids. -/
def eightFavorites : List ScoredRecipe := (List.range 8).map (fun i => mkFav (i + 1))

/-- Six new recipes with distinct nonempty urls. -/
def sixNews : List ScoredRecipe := (List.range 6).map mkNew

/-! ## General lemmas -/

theorem floor_le_pyRound (q : ℚ) : ⌊q⌋ ≤ pyRound q := by
  unfold pyRound
  split
  · split <;> omega
  · rw [round_eq]
    exact Int.floor_le_floor (by linarith)

theorem pyRound_le_round (q : ℚ) : pyRound q ≤ round q := by
  unfold pyRound
  split
  · rename_i htie
    have hq : q = (⌊q⌋ : ℚ) + 1/2 := by linarith
    have hr : round q = ⌊q⌋ + 1 := by
      rw [round_eq]
      conv_lhs => rw [hq]
      rw [show (⌊q⌋ : ℚ) + 1/2 + 1/2 = ((⌊q⌋ + 1 : ℤ) : ℚ) by push_cast; ring,
        Int.floor_intCast]
    rw [hr]; split <;> omega
  · exact le_refl _

theorem pyRound_nonneg {q : ℚ} (h : 0 ≤ q) : 0 ≤ pyRound q :=
  le_trans (Int.floor_nonneg.mpr h) (floor_le_pyRound q)

theorem pyRound_le {q : ℚ} {n : ℤ} (h : q ≤ n) : pyRound q ≤ n := by
  refine le_trans (pyRound_le_round q) ?_
  rw [round_eq]
  have : ⌊q + 1/2⌋ ≤ ⌊(n:ℚ) + 1/2⌋ := Int.floor_le_floor (by linarith)
  rwa [Int.floor_int_add, show ⌊(1:ℚ)/2⌋ = 0 by norm_num, add_zero] at this

theorem abs_pyRound_sub (q : ℚ) : |(pyRound q : ℚ) - q| ≤ 1/2 := by
  unfold pyRound
  split
  · rename_i htie
    have hq : q = (⌊q⌋ : ℚ) + 1/2 := by linarith
    split
    · rw [show ((⌊q⌋:ℤ):ℚ) - q = -(1/2) by linarith]
      rw [abs_neg, abs_of_nonneg (by norm_num)]
    · push_cast
      rw [show ((⌊q⌋:ℚ) + 1) - q = 1/2 by linarith,
        abs_of_nonneg (by norm_num)]
  · rw [abs_sub_comm]; exact abs_sub_round q

theorem pyRoundTo1_nonneg {q : ℚ} (h : 0 ≤ q) : 0 ≤ pyRoundTo1 q := by
  unfold pyRoundTo1
  have h1 : (0:ℤ) ≤ pyRound (q * 10) := pyRound_nonneg (by linarith)
  have h2 : (0:ℚ) ≤ (pyRound (q * 10) : ℚ) := by exact_mod_cast h1
  linarith

theorem pyRoundTo1_le {q : ℚ} {n : ℤ} (h : q ≤ (n : ℚ)) : pyRoundTo1 q ≤ (n : ℚ) := by
  unfold pyRoundTo1
  have h1 : pyRound (q * 10) ≤ n * 10 := pyRound_le (by push_cast; linarith)
  have h2 : (pyRound (q * 10) : ℚ) ≤ ((n * 10 : ℤ) : ℚ) := by exact_mod_cast h1
  push_cast at h2
  linarith

theorem fromRecipeDict_toRecipeDict (r : ScoredRecipe) :
    fromRecipeDict (toRecipeDict r) = r := rfl

theorem fromSlotDict_toSlotDict (s : SlotRecommendation) :
    fromSlotDict (toSlotDict s) = s := by
  cases s with
  | mk w sl recs idx rf pd =>
    unfold fromSlotDict toSlotDict
    congr 1
    · rw [List.map_map]
      exact (List.map_congr_left (fun r _ => fromRecipeDict_toRecipeDict r)).trans
        (List.map_id _)
    · cases rf with
      | none => rfl
      | some x => cases x; rfl

theorem fromGroupDict_toGroupDict (g : MultiDayGroup) :
    fromGroupDict (toGroupDict g) = g := by
  cases g with
  | mk pw ps rs =>
    unfold fromGroupDict toGroupDict
    congr 1
    rw [List.map_map]
    exact (List.map_congr_left (fun x _ => by cases x; rfl)).trans (List.map_id _)

/-- Serialisation is lossless: `from_dict ∘ to_dict = id`. -/
theorem from_dict_to_dict (p : WeeklyRecommendation) :
    WeeklyRecommendation.from_dict p.to_dict = p := by
  cases p with
  | mk ga ws ca fc nc slots groups =>
    unfold WeeklyRecommendation.from_dict WeeklyRecommendation.to_dict
    congr 1
    · rw [List.map_map]
      exact (List.map_congr_left (fun s _ => fromSlotDict_toSlotDict s)).trans
        (List.map_id _)
    · rw [List.map_map]
      exact (List.map_congr_left (fun g _ => fromGroupDict_toGroupDict g)).trans
        (List.map_id _)

/-! ### Bounds of the scoring components -/

theorem favoriteRank_lt_30 {prefs : List String} {s : String} {i : Nat}
    (h : favoriteRank prefs s = some i) : i < 30 := by
  unfold favoriteRank at h
  have hmem : i ∈ (((prefs.take 30).map String.lowerAscii).enum.filterMap
      (fun p => if p.2 = s then some p.1 else none)) := by
    have := List.mem_getLast?_eq_getLast (l :=
      ((prefs.take 30).map String.lowerAscii).enum.filterMap
        (fun p => if p.2 = s then some p.1 else none)) (x := i) h
    obtain ⟨hne, heq⟩ := this
    rw [heq]
    exact List.getLast_mem hne
  rw [List.mem_filterMap] at hmem
  obtain ⟨⟨j, a⟩, hja, hif⟩ := hmem
  have hj := (List.mem_enum hja).1
  have hlen : ((prefs.take 30).map String.lowerAscii).length ≤ 30 := by
    rw [List.length_map]
    exact le_trans (List.length_take_le 30 prefs) (le_refl _)
  by_cases hcase : a = s
  · simp [hcase] at hif
    omega
  · simp [hcase] at hif

theorem affinityFold_bounds (ranks : String → Option Nat)
    (hr : ∀ s i, ranks s = some i → i < 30) (l : List String) :
    0 ≤ (affinityFold ranks l).1 ∧
      (affinityFold ranks l).1 ≤ 100 * (affinityFold ranks l).2.length := by
  induction l with
  | nil => simp [affinityFold]
  | cons ing rest ih =>
    unfold affinityFold
    cases hrk : ranks ing.lowerAscii with
    | none => simpa using ih
    | some rank =>
      have hlt := hr _ _ hrk
      have h1 : (0:ℚ) ≤ 100 * (1 - (rank : ℚ)/30) := by
        have : (rank : ℚ) ≤ 29 := by exact_mod_cast Nat.lt_succ_iff.mp hlt
        nlinarith
      have h2 : 100 * (1 - (rank : ℚ)/30) ≤ 100 := by
        have : (0:ℚ) ≤ (rank : ℚ) := by positivity
        nlinarith
      constructor
      · simp only []
        linarith [ih.1]
      · simp only [List.length_cons]
        push_cast
        linarith [ih.2]

theorem calcIngredientAffinity_bounds (ings prefs : List String) :
    0 ≤ (calcIngredientAffinity ings prefs).1 ∧
      (calcIngredientAffinity ings prefs).1 ≤ 100 := by
  unfold calcIngredientAffinity
  split
  · norm_num
  · split
    · norm_num
    · have hb := affinityFold_bounds (favoriteRank prefs)
        (fun s i h => favoriteRank_lt_30 h) ings
      dsimp only
      split
      · norm_num
      · rename_i hne
        set t := affinityFold (favoriteRank prefs) ings with ht
        have hlen : 0 < t.2.length := List.length_pos.mpr hne
        have hlenq : (0:ℚ) < (t.2.length : ℚ) := by exact_mod_cast hlen
        constructor
        · simp only []
          apply le_min (by norm_num)
          have havg : 0 ≤ t.1 / (t.2.length : ℚ) := div_nonneg hb.1 (le_of_lt hlenq)
          have hbonus : (0:ℚ) ≤ min 20 ((t.2.length : ℚ) * 5) := by
            apply le_min (by norm_num)
            positivity
          linarith
        · exact min_le_left _ _

theorem calcTimeCompatibility_bounds (prep : Option Nat) (slotAvg overallAvg : Option ℚ) :
    0 ≤ calcTimeCompatibility prep slotAvg overallAvg ∧
      calcTimeCompatibility prep slotAvg overallAvg ≤ 100 := by
  unfold calcTimeCompatibility
  cases prep with
  | none => norm_num
  | some t =>
    simp only []
    set e0 := (match slotAvg with
      | some e => e
      | none => overallAvg.getD 45) with he0
    set e := if e0 = 0 then 45 else e0 with he
    set d := |(t : ℚ) - e| / e with hd
    split
    · norm_num
    · rename_i h1
      push_neg at h1
      split
      · rename_i h2
        constructor <;> nlinarith
      · rename_i h2
        push_neg at h2
        split
        · rename_i h3
          constructor <;> nlinarith
        · rename_i h3
          push_neg at h3
          constructor
          · exact le_max_left _ _
          · apply max_le (by norm_num)
            nlinarith

theorem ratioTimes100_bounds {k n : Nat} (hk : k ≤ n) (hn : 0 < n) :
    0 ≤ ((k : ℚ) / (n : ℚ)) * 100 ∧ ((k : ℚ) / (n : ℚ)) * 100 ≤ 100 := by
  have hnq : (0:ℚ) < (n : ℚ) := by exact_mod_cast hn
  have hkq : (k : ℚ) ≤ (n : ℚ) := by exact_mod_cast hk
  constructor
  · positivity
  · rw [div_mul_eq_mul_div, div_le_iff hnq]
    nlinarith

theorem calcBiolandAvailability_bounds (ings available : List String) :
    0 ≤ (calcBiolandAvailability ings available).1 ∧
      (calcBiolandAvailability ings available).1 ≤ 100 := by
  unfold calcBiolandAvailability
  split
  · norm_num
  · rename_i hne
    dsimp only
    exact ratioTimes100_bounds (List.length_filterMap_le _ _) (List.length_pos.mpr hne)

theorem calcSeasonality_bounds (ings : List String) (month : Nat) :
    0 ≤ (calcSeasonality ings month).1 ∧ (calcSeasonality ings month).1 ≤ 100 := by
  unfold calcSeasonality
  split
  · norm_num
  · rename_i hne
    dsimp only
    exact ratioTimes100_bounds (Nat.sub_le _ _) (List.length_pos.mpr hne)

theorem RATING_MULTIPLIERS_bounds {n : Nat} {m : ℚ}
    (h : RATING_MULTIPLIERS n = some m) : 0 ≤ m ∧ m ≤ 6/5 := by
  unfold RATING_MULTIPLIERS at h
  match n, h with
  | 1, h => cases h; norm_num
  | 2, h => cases h; norm_num
  | 3, h => cases h; norm_num
  | 4, h => cases h; norm_num
  | 5, h => cases h; norm_num

theorem totalTimesMultiplier_bounds {total m : ℚ} (h0 : 0 ≤ total) (h100 : total ≤ 100)
    (hm0 : 0 ≤ m) (hm : m ≤ 6/5) :
    0 ≤ pyRoundTo1 (total * m) ∧ pyRoundTo1 (total * m) ≤ 120 := by
  have h1 : 0 ≤ total * m := mul_nonneg h0 hm0
  have h2 : total * m ≤ ((120 : ℤ) : ℚ) := by push_cast; nlinarith
  refine ⟨pyRoundTo1_nonneg h1, ?_⟩
  have := pyRoundTo1_le h2
  simpa using this

/-- **C1 (amended).**  For every recipe and scoring context (with a valid
month), a returned `total_score` lies between 0 and 120: the weighted sum
is in [0, 100], the rating multiplier in [0, 1.2], and — contrary to the
spec — no clamping to [0, 100] is applied afterwards. -/
theorem C1_total_score_bounds (r : Recipe) (ctx : ScoringContext) (sb : ScoreBreakdown)
    (hm1 : 1 ≤ ctx.month) (hm2 : ctx.month ≤ 12)
    (h : calculate_score r ctx = some sb) :
    0 ≤ sb.total_score ∧ sb.total_score ≤ 120 := by
  unfold calculate_score at h
  have haff := calcIngredientAffinity_bounds (getRecipeBaseIngredients r ctx.profile)
    ctx.profile.ingredient_preferences
  have htime := calcTimeCompatibility_bounds r.prep_time_minutes
    (ctx.profile.weekday_patterns ctx.weekday ctx.meal_slot)
    ctx.profile.overall_avg_prep_time
  have hbio := calcBiolandAvailability_bounds (getRecipeBaseIngredients r ctx.profile)
    ctx.available_ingredients
  have hsea := calcSeasonality_bounds (getRecipeBaseIngredients r ctx.profile) ctx.month
  dsimp only at h
  set aff := calcIngredientAffinity (getRecipeBaseIngredients r ctx.profile)
    ctx.profile.ingredient_preferences with haffdef
  set time := calcTimeCompatibility r.prep_time_minutes
    (ctx.profile.weekday_patterns ctx.weekday ctx.meal_slot)
    ctx.profile.overall_avg_prep_time with htimedef
  set bio := calcBiolandAvailability (getRecipeBaseIngredients r ctx.profile)
    ctx.available_ingredients with hbiodef
  set sea := calcSeasonality (getRecipeBaseIngredients r ctx.profile) ctx.month
    with hseadef
  set total := aff.1 * (2/5) + time * (1/4) + bio.1 * (1/5) + sea.1 * (3/20)
    with htotal
  have ht0 : 0 ≤ total := by
    rw [htotal]
    have := haff.1; have := htime.1; have := hbio.1; have := hsea.1
    linarith
  have ht100 : total ≤ 100 := by
    rw [htotal]
    have := haff.2; have := htime.2; have := hbio.2; have := hsea.2
    linarith
  have hbase : 0 ≤ pyRoundTo1 total ∧ pyRoundTo1 total ≤ 120 := by
    refine ⟨pyRoundTo1_nonneg ht0, ?_⟩
    have h2 : total ≤ ((120 : ℤ) : ℚ) := by push_cast; linarith
    have := pyRoundTo1_le h2
    simpa using this
  cases hid : r.id with
  | none =>
    rw [hid] at h
    simp only [Option.some.injEq] at h
    have hts : sb.total_score = pyRoundTo1 total := by rw [← h]
    rw [hts]
    exact hbase
  | some i =>
    rw [hid] at h
    by_cases hi0 : i = 0
    · simp only [hi0, ne_eq, not_true_eq_false, if_false, reduceIte,
        Option.some.injEq] at h
      have hts : sb.total_score = pyRoundTo1 total := by rw [← h]
      rw [hts]
      exact hbase
    · simp only [ne_eq, hi0, not_false_eq_true, if_true, reduceIte] at h
      cases hrt : ctx.recipe_ratings i with
      | none =>
        rw [hrt] at h
        simp only [Option.some.injEq] at h
        have hts : sb.total_score = pyRoundTo1 total := by rw [← h]
        rw [hts]
        exact hbase
      | some ur =>
        rw [hrt] at h
        dsimp only at h
        cases hmul : RATING_MULTIPLIERS ur with
        | none => rw [hmul] at h; cases h
        | some m =>
          rw [hmul] at h
          simp only [Option.some.injEq] at h
          have hts : sb.total_score = pyRoundTo1 (total * m) := by rw [← h]
          rw [hts]
          have hmb := RATING_MULTIPLIERS_bounds hmul
          exact totalTimesMultiplier_bounds ht0 ht100 hmb.1 hmb.2

theorem C1_total_score_bounds_witness :
    0 ≤ fiveStarScore.total_score ∧ fiveStarScore.total_score ≤ 120 :=
  C1_total_score_bounds fiveStarRecipe fiveStarContext fiveStarScore
    (by decide) (by decide) (by with_unfolding_all decide)

/-- **C1 (counterexample).**  A recipe whose four sub-scores are all 100
and that carries a 5★ rating is scored 120 — `calculate_score` applies no
clamp to [0, 100], contradicting the claim `total_score ≤ 100`. -/
theorem C1_counterexample :
    (calculate_score fiveStarRecipe fiveStarContext).map ScoreBreakdown.total_score
      = some 120 ∧ ¬((120 : ℚ) ≤ 100) := by
  refine ⟨by with_unfolding_all decide, by norm_num⟩

/-- **C2 (amended).**  `set_multi_day` and `clear_multi_day` validate only
slot existence: a call is rejected (returns `false`) with the plan left
untouched exactly when the named primary/target slot is absent; malformed
multi-day groups (empty reuse list, self-referencing reuse target,
duplicate reuse target across groups, clearing a slot in no group) are
*not* rejected and do mutate the plan. -/
theorem C2_validation_is_slot_existence_only (p : WeeklyRecommendation)
    (pw ps w s : String) (rs : List (String × String)) :
    ((p.set_multi_day pw ps rs).1 = false ↔ p.get_slot pw ps = none)
    ∧ (p.get_slot pw ps = none → p.set_multi_day pw ps rs = (false, p))
    ∧ ((p.clear_multi_day w s).1 = false ↔ p.get_slot w s = none)
    ∧ (p.get_slot w s = none → p.clear_multi_day w s = (false, p)) := by
  unfold WeeklyRecommendation.set_multi_day WeeklyRecommendation.clear_multi_day
  refine ⟨?_, ?_, ?_, ?_⟩
  · cases hs : p.get_slot pw ps <;> simp
  · intro hs; rw [hs]
  · cases hs : p.get_slot w s with
    | none => simp
    | some target =>
      cases htr : target.reuse_from <;> simp [htr]
  · intro hs; rw [hs]

theorem C2_validation_witness :
    emptyPlan.set_multi_day "Montag" "Mittagessen" [] = (false, emptyPlan) :=
  (C2_validation_is_slot_existence_only emptyPlan "Montag" "Mittagessen"
    "Montag" "Mittagessen" []).2.1 (by rfl)

/-- **C2 (counterexample).**  On a plan with one slot, `set_multi_day`
with an *empty* reuse list is accepted (`true`) and mutates the plan: a
`MultiDayGroup` with an empty reuse list is appended.  The claim says the
call is rejected as a validation error with no mutation. -/
theorem C2_counterexample :
    (oneSlotPlan.set_multi_day "Montag" "Mittagessen" []).1 = true
    ∧ (oneSlotPlan.set_multi_day "Montag" "Mittagessen" []).2 ≠ oneSlotPlan
    ∧ (oneSlotPlan.set_multi_day "Montag" "Mittagessen" []).2.multi_day_groups
        = [⟨"Montag", "Mittagessen", []⟩] := by
  refine ⟨by rfl, by decide, by rfl⟩

/-- **C7 (amended).**  `round_amount` rounds per unit *name*, not unit
class: `gramm`/`milliliter` to a nearest multiple of 10, `stück`/`scheibe`
to a nearest whole number with minimum 1, `esslöffel`/`teelöffel` to a
nearest half, and everything else — including the mass/volume units
`kilogramm` and `liter` — to a nearest tenth. -/
theorem C7_round_amount_unit_classes (a : ℚ) (u : Option String) :
    ((u = some "gramm" ∨ u = some "milliliter") →
      (∃ k : ℤ, round_amount a u = (k : ℚ) * 10) ∧ |round_amount a u - a| ≤ 5)
    ∧ ((u = some "stück" ∨ u = some "scheibe") →
      (∃ k : ℤ, round_amount a u = (k : ℚ) ∧ 1 ≤ k) ∧
        (1 ≤ a → |round_amount a u - a| ≤ 1/2))
    ∧ ((u = some "esslöffel" ∨ u = some "teelöffel") →
      (∃ k : ℤ, round_amount a u = (k : ℚ) / 2) ∧ |round_amount a u - a| ≤ 1/4)
    ∧ (u ≠ some "gramm" → u ≠ some "milliliter" → u ≠ some "stück" →
       u ≠ some "scheibe" → u ≠ some "esslöffel" → u ≠ some "teelöffel" →
      (∃ k : ℤ, round_amount a u = (k : ℚ) / 10) ∧ |round_amount a u - a| ≤ 1/20) := by
  have habs10 := abs_pyRound_sub (a / 10)
  have habs1 := abs_pyRound_sub a
  have habs2 := abs_pyRound_sub (a * 2)
  have habsd := abs_pyRound_sub (a * 10)
  refine ⟨?_, ?_, ?_, ?_⟩
  · intro hu
    have hbr : round_amount a u = ((pyRound (a / 10) * 10 : ℤ) : ℚ) := by
      unfold round_amount
      rw [if_pos hu]
    refine ⟨⟨pyRound (a / 10), by rw [hbr]; push_cast; ring⟩, ?_⟩
    rw [hbr]
    push_cast
    rw [show (pyRound (a / 10) : ℚ) * 10 - a = 10 * ((pyRound (a / 10) : ℚ) - a / 10)
      by ring, abs_mul, abs_of_nonneg (by norm_num : (0:ℚ) ≤ 10)]
    linarith [habs10]
  · intro hu
    have hne : ¬(u = some "gramm" ∨ u = some "milliliter") := by
      rcases hu with h | h <;> simp [h]
    have hbr : round_amount a u = ((max 1 (pyRound a) : ℤ) : ℚ) := by
      unfold round_amount
      rw [if_neg hne, if_pos hu]
    refine ⟨⟨max 1 (pyRound a), by rw [hbr], le_max_left _ _⟩, ?_⟩
    intro ha
    have hfl : (1:ℤ) ≤ ⌊a⌋ := by
      rw [Int.le_floor]; exact_mod_cast ha
    have hp : (1:ℤ) ≤ pyRound a := le_trans hfl (floor_le_pyRound a)
    have hmax : max 1 (pyRound a) = pyRound a := max_eq_right hp
    rw [hbr, hmax]
    exact habs1
  · intro hu
    have hne1 : ¬(u = some "gramm" ∨ u = some "milliliter") := by
      rcases hu with h | h <;> simp [h]
    have hne2 : ¬(u = some "stück" ∨ u = some "scheibe") := by
      rcases hu with h | h <;> simp [h]
    have hbr : round_amount a u = ((pyRound (a * 2) : ℤ) : ℚ) / 2 := by
      unfold round_amount
      rw [if_neg hne1, if_neg hne2, if_pos hu]
    refine ⟨⟨pyRound (a * 2), by rw [hbr]⟩, ?_⟩
    rw [hbr]
    rw [show ((pyRound (a * 2) : ℤ) : ℚ) / 2 - a = ((pyRound (a * 2) : ℤ) : ℚ) * (1/2)
        - (a * 2) * (1/2) by ring]
    rw [show ((pyRound (a * 2) : ℤ) : ℚ) * (1/2) - (a * 2) * (1/2)
        = (1/2) * (((pyRound (a * 2) : ℤ) : ℚ) - a * 2) by ring]
    rw [abs_mul, abs_of_nonneg (by norm_num : (0:ℚ) ≤ 1/2)]
    linarith [habs2]
  · intro h1 h2 h3 h4 h5 h6
    have hne1 : ¬(u = some "gramm" ∨ u = some "milliliter") := by
      rintro (h | h) <;> [exact h1 h; exact h2 h]
    have hne2 : ¬(u = some "stück" ∨ u = some "scheibe") := by
      rintro (h | h) <;> [exact h3 h; exact h4 h]
    have hne3 : ¬(u = some "esslöffel" ∨ u = some "teelöffel") := by
      rintro (h | h) <;> [exact h5 h; exact h6 h]
    have hbr : round_amount a u = pyRoundTo1 a := by
      unfold round_amount
      rw [if_neg hne1, if_neg hne2, if_neg hne3]
    refine ⟨⟨pyRound (a * 10), by rw [hbr]; rfl⟩, ?_⟩
    rw [hbr]
    unfold pyRoundTo1
    rw [show (pyRound (a * 10) : ℚ) / 10 - a = (1/10) * ((pyRound (a * 10) : ℚ) - a * 10)
      by ring]
    rw [abs_mul, abs_of_nonneg (by norm_num : (0:ℚ) ≤ 1/10)]
    linarith [habsd]

theorem C7_round_amount_witness :
    |round_amount 165 (some "gramm") - 165| ≤ 5 :=
  ((C7_round_amount_unit_classes 165 (some "gramm")).1 (Or.inl rfl)).2

/-- **C7 (counterexample).**  14 kilogramm is left at 14 (the 1-decimal
default class), while 14 gramm is rounded to 10 — so the mass unit
`kilogramm` is *not* rounded to the nearest 10 as the claim states for
mass units. -/
theorem C7_counterexample :
    round_amount 14 (some "kilogramm") = 14 ∧ round_amount 14 (some "gramm") = 10 := by
  refine ⟨by with_unfolding_all decide, by with_unfolding_all decide⟩

/-- **C8.**  Scaling example: a recipe with 4 servings and the parsed
ingredient "200 gramm reis", at household size 2, yields 100 g with
`prep_days = 1` (total factor 2/4 × 1 = 0.5) and 300 g with
`prep_days = 3` (raw 300, which rounds to 300). -/
theorem C8_scaling_example :
    (generate_shopping_list reisPlanOneDay 2 reisParsedDB).items
      = [⟨"reis", some 100, some "gramm", ["Montag Abendessen"]⟩]
    ∧ (generate_shopping_list reisPlanThreeDays 2 reisParsedDB).items
      = [⟨"reis", some 300, some "gramm", ["Montag Abendessen"]⟩]
    ∧ round_amount 300 (some "gramm") = 300 := by
  refine ⟨by with_unfolding_all decide, by with_unfolding_all decide,
    by with_unfolding_all decide⟩

/-- **C10 (amended).**  For a non-reuse slot, a stored `selected_index` at
or past the end of a *non-empty* candidate list falls back to the top
(index 0) candidate; `selected_recipe` is `none` exactly when the index is
negative or the candidate list is empty. -/
theorem C10_selected_recipe_fallback (s : SlotRecommendation)
    (hnr : s.reuse_from = none) :
    (s.recommendations ≠ [] → (s.recommendations.length : Int) ≤ s.selected_index →
      s.selected_recipe = s.top_recipe)
    ∧ (s.selected_recipe = none ↔ s.selected_index < 0 ∨ s.recommendations = []) := by
  unfold SlotRecommendation.selected_recipe SlotRecommendation.is_reuse_slot
    SlotRecommendation.top_recipe
  rw [hnr]
  simp only [Option.isSome_none, Bool.false_eq_true, if_false]
  constructor
  · intro hne hlen
    have hnonneg : (0 : Int) ≤ (s.recommendations.length : Int) := by positivity
    rw [if_neg (by omega), if_neg (by omega)]
  · by_cases hneg : s.selected_index < 0
    · rw [if_pos hneg]
      simp [hneg]
    · rw [if_neg hneg]
      by_cases hlt : s.selected_index < (s.recommendations.length : Int)
      · rw [if_pos hlt]
        have hidx : s.selected_index.toNat < s.recommendations.length := by omega
        rw [List.getElem?_eq_getElem hidx]
        have hne : s.recommendations ≠ [] := by
          intro hnil
          rw [hnil] at hidx
          simp at hidx
        simp [hneg, hne]
      · rw [if_neg hlt]
        rw [List.head?_eq_none_iff]
        have : ¬ s.selected_index < 0 := hneg
        constructor
        · intro h; exact Or.inr h
        · rintro (h | h)
          · exact absurd h this
          · exact h

theorem C10_selected_recipe_witness :
    oneCandidateIdxFive.selected_recipe = oneCandidateIdxFive.top_recipe :=
  (C10_selected_recipe_fallback oneCandidateIdxFive rfl).1 (by decide)
    (by decide)

/-- **C10 (counterexample).**  A non-reuse slot with an *empty* candidate
list and stored index 5 (≥ length) yields no selection at all — not the
index-0 candidate — although the index is non-negative. -/
theorem C10_counterexample :
    emptySlotIdxFive.reuse_from = none
    ∧ 0 ≤ emptySlotIdxFive.selected_index
    ∧ (emptySlotIdxFive.recommendations.length : Int) ≤ emptySlotIdxFive.selected_index
    ∧ emptySlotIdxFive.selected_recipe = none := by
  refine ⟨rfl, by decide, by decide, by rfl⟩

/-- **C4 (amended).**  For a recipe that is not blacklisted and has at
least one base ingredient, viability is *equivalent* to "no unobtainable
ingredient is a key ingredient of the title (direct substring **or** via
the fixed German variations table, e.g. `hokkaido` matches a title
containing `butternut`) and the obtainable ratio is at least 0.5";
the spec's substring-only condition remains a necessary condition
(first conjunct). -/
theorem C4_viability_characterization (r : Recipe) (ctx : ScoringContext)
    (hb : (match r.id with
           | some i => i ≠ 0 && ctx.blacklisted_ids.contains i
           | none => false) = false)
    (hne : getRecipeBaseIngredients r ctx.profile ≠ []) :
    ((is_recipe_viable r ctx minObtainableRatio).1 = true → specWordedViable r ctx = true)
    ∧ ((is_recipe_viable r ctx minObtainableRatio).1 = true ↔
        ((get_unobtainable_ingredients (getRecipeBaseIngredients r ctx.profile)
            ctx.available_ingredients ctx.month).any
          (fun ing => isKeyIngredient ing r.title) = false
        ∧ minObtainableRatio ≤
            ((getRecipeBaseIngredients r ctx.profile).length -
              (get_unobtainable_ingredients (getRecipeBaseIngredients r ctx.profile)
                ctx.available_ingredients ctx.month).length : Nat) /
              ((getRecipeBaseIngredients r ctx.profile).length : ℚ))) := by
  have hiff : (is_recipe_viable r ctx minObtainableRatio).1 = true ↔
      ((get_unobtainable_ingredients (getRecipeBaseIngredients r ctx.profile)
          ctx.available_ingredients ctx.month).any
        (fun ing => isKeyIngredient ing r.title) = false
      ∧ minObtainableRatio ≤
          ((getRecipeBaseIngredients r ctx.profile).length -
            (get_unobtainable_ingredients (getRecipeBaseIngredients r ctx.profile)
              ctx.available_ingredients ctx.month).length : Nat) /
            ((getRecipeBaseIngredients r ctx.profile).length : ℚ)) := by
    unfold is_recipe_viable
    rw [hb]
    simp only [Bool.false_eq_true, if_false, reduceIte]
    rw [if_neg hne]
    simp only [Bool.and_eq_true, Bool.not_eq_true', decide_eq_true_eq]
  refine ⟨?_, hiff⟩
  · intro hv
    obtain ⟨hkey, hratio⟩ := hiff.mp hv
    unfold specWordedViable
    rw [List.any_eq_false] at hkey
    simp only [Bool.and_eq_true, Bool.not_eq_true', decide_eq_true_eq]
    refine ⟨?_, hratio⟩
    rw [List.any_eq_false]
    intro ing hing
    have hk := hkey ing hing
    unfold isKeyIngredient at hk
    by_cases hc : strContains r.title.lowerAscii ing.lowerAscii = true
    · rw [if_pos hc] at hk
      exact absurd rfl hk
    · simpa using hc

theorem C4_viability_witness :
    specWordedViable fiveStarRecipe fiveStarContext = true :=
  (C4_viability_characterization fiveStarRecipe fiveStarContext
    (by with_unfolding_all decide) (by with_unfolding_all decide)).1
    (by with_unfolding_all decide)

/-- **C4 (counterexample).**  `butternutRecipe` in May with an empty shop
set: its base ingredients are `hokkaido` (out of season, *not* appearing
in the title) and `kartoffel` (year-round), so the obtainable ratio is
exactly 0.5 and no unobtainable ingredient's name appears in the title —
the claim predicts viable — yet `is_recipe_viable` returns not-viable,
because `hokkaido` is a key ingredient of the title "Butternut Suppe"
through the variations table. -/
theorem C4_counterexample :
    (is_recipe_viable butternutRecipe bareContext minObtainableRatio).1 = false
    ∧ specWordedViable butternutRecipe bareContext = true
    ∧ getRecipeBaseIngredients butternutRecipe bareContext.profile
        = ["hokkaido", "kartoffel"]
    ∧ (is_recipe_viable butternutRecipe bareContext minObtainableRatio).2.2 = 1/2 := by
  refine ⟨by with_unfolding_all decide, by with_unfolding_all decide,
    by with_unfolding_all decide, by with_unfolding_all decide⟩

/-! ### Lemmas about slot lookup and in-place update -/

theorem find?_updateFirstSlot_self (w s : String)
    (f : SlotRecommendation → SlotRecommendation)
    (hf : ∀ x, (f x).weekday = x.weekday ∧ (f x).slot = x.slot)
    (l : List SlotRecommendation) :
    (updateFirstSlot w s f l).find? (fun x => x.weekday = w ∧ x.slot = s) =
      (l.find? (fun x => x.weekday = w ∧ x.slot = s)).map f := by
  induction l with
  | nil => rfl
  | cons x xs ih =>
    by_cases hx : x.weekday = w ∧ x.slot = s
    · rw [updateFirstSlot, if_pos hx]
      rw [List.find?_cons_of_pos _ (by simp [(hf x).1, (hf x).2, hx.1, hx.2]),
        List.find?_cons_of_pos _ (by simp [hx.1, hx.2])]
      rfl
    · rw [updateFirstSlot, if_neg hx]
      rw [List.find?_cons_of_neg _ (by simpa using hx),
        List.find?_cons_of_neg _ (by simpa using hx), ih]

theorem find?_updateFirstSlot_other {w s w' s' : String}
    (h : ¬(w = w' ∧ s = s'))
    (f : SlotRecommendation → SlotRecommendation)
    (hf : ∀ x, (f x).weekday = x.weekday ∧ (f x).slot = x.slot)
    (l : List SlotRecommendation) :
    (updateFirstSlot w s f l).find? (fun x => x.weekday = w' ∧ x.slot = s') =
      l.find? (fun x => x.weekday = w' ∧ x.slot = s') := by
  induction l with
  | nil => rfl
  | cons x xs ih =>
    by_cases hx : x.weekday = w ∧ x.slot = s
    · rw [updateFirstSlot, if_pos hx]
      have hnot : ¬(x.weekday = w' ∧ x.slot = s') := by
        rintro ⟨hw, hs⟩
        exact h ⟨hx.1 ▸ hw, hx.2 ▸ hs⟩
      rw [List.find?_cons_of_neg _ (by
          simp only [decide_eq_true_eq, (hf x).1, (hf x).2]
          exact hnot),
        List.find?_cons_of_neg _ (by simpa using hnot)]
    · rw [updateFirstSlot, if_neg hx]
      by_cases hx' : x.weekday = w' ∧ x.slot = s'
      · rw [List.find?_cons_of_pos _ (by simp [hx'.1, hx'.2]),
          List.find?_cons_of_pos _ (by simp [hx'.1, hx'.2])]
      · rw [List.find?_cons_of_neg _ (by simpa using hx'),
          List.find?_cons_of_neg _ (by simpa using hx'), ih]

theorem dropReuseFromFirstGroup_append (pw ps w s : String)
    (A l : List MultiDayGroup)
    (hA : ∀ g ∈ A, ¬(g.primary_weekday = pw ∧ g.primary_slot = ps)) :
    dropReuseFromFirstGroup pw ps w s (A ++ l) =
      A ++ dropReuseFromFirstGroup pw ps w s l := by
  induction A with
  | nil => rfl
  | cons g gs ih =>
    rw [List.cons_append, dropReuseFromFirstGroup,
      if_neg (hA g (List.mem_cons_self g gs)), List.cons_append,
      ih (fun g' hg' => hA g' (List.mem_cons_of_mem g hg'))]

/-- Effect of `set_multi_day` with two reuse slots on the three affected
slots and on the group list, for pairwise-distinct slot keys. -/
theorem set_multi_day_two_effect (p : WeeklyRecommendation)
    (pw ps w1 s1 w2 s2 : String) (x0 y1 y2 : SlotRecommendation)
    (hP : p.get_slot pw ps = some x0)
    (hR1 : p.get_slot w1 s1 = some y1)
    (hR2 : p.get_slot w2 s2 = some y2)
    (h1 : ¬(w1 = pw ∧ s1 = ps)) (h2 : ¬(w2 = pw ∧ s2 = ps))
    (h12 : ¬(w2 = w1 ∧ s2 = s1)) :
    (p.set_multi_day pw ps [(w1, s1), (w2, s2)]).2.get_slot pw ps
        = some { x0 with prep_days := 3, reuse_from := none }
    ∧ (p.set_multi_day pw ps [(w1, s1), (w2, s2)]).2.get_slot w1 s1
        = some { y1 with reuse_from := some (pw, ps), recommendations := [],
                         prep_days := 1 }
    ∧ (p.set_multi_day pw ps [(w1, s1), (w2, s2)]).2.get_slot w2 s2
        = some { y2 with reuse_from := some (pw, ps), recommendations := [],
                         prep_days := 1 }
    ∧ (p.set_multi_day pw ps [(w1, s1), (w2, s2)]).2.multi_day_groups
        = (p.multi_day_groups.filter
            (fun g => ¬(g.primary_weekday = pw ∧ g.primary_slot = ps)))
          ++ [⟨pw, ps, [(w1, s1), (w2, s2)]⟩] := by
  unfold WeeklyRecommendation.set_multi_day
  rw [hP]
  unfold WeeklyRecommendation.get_slot
  dsimp only
  simp only [List.foldl_cons, List.foldl_nil]
  refine ⟨?_, ?_, ?_, ?_⟩
  · rw [find?_updateFirstSlot_other h2
        (fun x => { x with reuse_from := some (pw, ps), recommendations := [],
                           prep_days := 1 }) (fun x => ⟨rfl, rfl⟩),
      find?_updateFirstSlot_other h1
        (fun x => { x with reuse_from := some (pw, ps), recommendations := [],
                           prep_days := 1 }) (fun x => ⟨rfl, rfl⟩),
      find?_updateFirstSlot_self pw ps
        (fun x => { x with prep_days := 1 + ([(w1, s1), (w2, s2)].length : Int),
                           reuse_from := none }) (fun x => ⟨rfl, rfl⟩)]
    unfold WeeklyRecommendation.get_slot at hP
    rw [hP]
    rfl
  · rw [find?_updateFirstSlot_other h12
        (fun x => { x with reuse_from := some (pw, ps), recommendations := [],
                           prep_days := 1 }) (fun x => ⟨rfl, rfl⟩),
      find?_updateFirstSlot_self w1 s1
        (fun x => { x with reuse_from := some (pw, ps), recommendations := [],
                           prep_days := 1 }) (fun x => ⟨rfl, rfl⟩),
      find?_updateFirstSlot_other
        (by rintro ⟨hw, hs⟩; exact h1 ⟨hw.symm, hs.symm⟩)
        (fun x => { x with prep_days := 1 + ([(w1, s1), (w2, s2)].length : Int),
                           reuse_from := none }) (fun x => ⟨rfl, rfl⟩)]
    unfold WeeklyRecommendation.get_slot at hR1
    rw [hR1]
    rfl
  · rw [find?_updateFirstSlot_self w2 s2
        (fun x => { x with reuse_from := some (pw, ps), recommendations := [],
                           prep_days := 1 }) (fun x => ⟨rfl, rfl⟩),
      find?_updateFirstSlot_other
        (by rintro ⟨hw, hs⟩; exact h12 ⟨hw.symm, hs.symm⟩)
        (fun x => { x with reuse_from := some (pw, ps), recommendations := [],
                           prep_days := 1 }) (fun x => ⟨rfl, rfl⟩),
      find?_updateFirstSlot_other
        (by rintro ⟨hw, hs⟩; exact h2 ⟨hw.symm, hs.symm⟩)
        (fun x => { x with prep_days := 1 + ([(w1, s1), (w2, s2)].length : Int),
                           reuse_from := none }) (fun x => ⟨rfl, rfl⟩)]
    unfold WeeklyRecommendation.get_slot at hR2
    rw [hR2]
    rfl
  · trivial

/-- **C5.**  `set_multi_day(P, [R1, R2])` followed by serialisation to the
persisted dict and deserialisation reproduces `prep_days(P) = 3`,
`is_reuse(R1)`, `is_reuse(R2)`, and `reuse_from(R1) = reuse_from(R2) = P`,
for any plan containing the three pairwise-distinct slots. -/
theorem C5_multi_day_roundtrip (p : WeeklyRecommendation)
    (pw ps w1 s1 w2 s2 : String) (x0 y1 y2 : SlotRecommendation)
    (hP : p.get_slot pw ps = some x0)
    (hR1 : p.get_slot w1 s1 = some y1)
    (hR2 : p.get_slot w2 s2 = some y2)
    (h1 : ¬(w1 = pw ∧ s1 = ps)) (h2 : ¬(w2 = pw ∧ s2 = ps))
    (h12 : ¬(w2 = w1 ∧ s2 = s1)) :
    ((WeeklyRecommendation.from_dict
        ((p.set_multi_day pw ps [(w1, s1), (w2, s2)]).2.to_dict)).get_slot pw ps).map
      (fun x => x.prep_days) = some 3
    ∧ ((WeeklyRecommendation.from_dict
        ((p.set_multi_day pw ps [(w1, s1), (w2, s2)]).2.to_dict)).get_slot w1 s1).map
      SlotRecommendation.is_reuse_slot = some true
    ∧ ((WeeklyRecommendation.from_dict
        ((p.set_multi_day pw ps [(w1, s1), (w2, s2)]).2.to_dict)).get_slot w2 s2).map
      SlotRecommendation.is_reuse_slot = some true
    ∧ ((WeeklyRecommendation.from_dict
        ((p.set_multi_day pw ps [(w1, s1), (w2, s2)]).2.to_dict)).get_slot w1 s1).map
      (fun x => x.reuse_from) = some (some (pw, ps))
    ∧ ((WeeklyRecommendation.from_dict
        ((p.set_multi_day pw ps [(w1, s1), (w2, s2)]).2.to_dict)).get_slot w2 s2).map
      (fun x => x.reuse_from) = some (some (pw, ps)) := by
  rw [from_dict_to_dict]
  obtain ⟨e1, e2, e3, _⟩ :=
    set_multi_day_two_effect p pw ps w1 s1 w2 s2 x0 y1 y2 hP hR1 hR2 h1 h2 h12
  refine ⟨by rw [e1]; rfl, by rw [e2]; rfl, by rw [e3]; rfl, by rw [e2]; rfl, by rw [e3]; rfl⟩

theorem C5_multi_day_roundtrip_witness :
    ((WeeklyRecommendation.from_dict
        ((threeSlotPlan.set_multi_day "Montag" "Abendessen"
          [("Dienstag", "Abendessen"), ("Mittwoch", "Abendessen")]).2.to_dict)).get_slot
      "Montag" "Abendessen").map (fun x => x.prep_days) = some 3 :=
  (C5_multi_day_roundtrip threeSlotPlan "Montag" "Abendessen"
    "Dienstag" "Abendessen" "Mittwoch" "Abendessen"
    ⟨"Montag", "Abendessen", [reisScored], 0, none, 1⟩
    ⟨"Dienstag", "Abendessen", [], 0, none, 1⟩
    ⟨"Mittwoch", "Abendessen", [], 0, none, 1⟩
    (by with_unfolding_all decide) (by with_unfolding_all decide)
    (by with_unfolding_all decide) (by decide) (by decide) (by decide)).1

/-- **C6.**  In the state reached by `set_multi_day(P, [R1, R2])` (from a
plan whose groups do not already list R1 as a reuse target — the §3
invariant), `clear_multi_day(R1)` leaves P with `prep_days = 2`, makes R1
standalone (`reuse_from` cleared, listed in no group's reuse list), and
leaves R2 a reuse slot of P. -/
theorem C6_clear_multi_day_reuse_slot (p : WeeklyRecommendation)
    (pw ps w1 s1 w2 s2 : String) (x0 y1 y2 : SlotRecommendation)
    (hP : p.get_slot pw ps = some x0)
    (hR1 : p.get_slot w1 s1 = some y1)
    (hR2 : p.get_slot w2 s2 = some y2)
    (h1 : ¬(w1 = pw ∧ s1 = ps)) (h2 : ¬(w2 = pw ∧ s2 = ps))
    (h12 : ¬(w2 = w1 ∧ s2 = s1))
    (hg : ∀ g ∈ p.multi_day_groups, (w1, s1) ∉ g.reuse_slots) :
    ((((p.set_multi_day pw ps [(w1, s1), (w2, s2)]).2.clear_multi_day w1 s1).2.get_slot
        pw ps).map (fun x => x.prep_days) = some 2)
    ∧ ((((p.set_multi_day pw ps [(w1, s1), (w2, s2)]).2.clear_multi_day w1 s1).2.get_slot
        w1 s1).map (fun x => x.reuse_from) = some none)
    ∧ (∀ g ∈ (((p.set_multi_day pw ps [(w1, s1), (w2, s2)]).2.clear_multi_day
        w1 s1).2.multi_day_groups), (w1, s1) ∉ g.reuse_slots)
    ∧ ((((p.set_multi_day pw ps [(w1, s1), (w2, s2)]).2.clear_multi_day w1 s1).2.get_slot
        w2 s2).map (fun x => x.reuse_from) = some (some (pw, ps))) := by
  obtain ⟨e1, e2, e3, e4⟩ :=
    set_multi_day_two_effect p pw ps w1 s1 w2 s2 x0 y1 y2 hP hR1 hR2 h1 h2 h12
  unfold WeeklyRecommendation.clear_multi_day
  rw [e2]
  dsimp only
  have hgroups : dropReuseFromFirstGroup pw ps w1 s1
      (p.set_multi_day pw ps [(w1, s1), (w2, s2)]).2.multi_day_groups =
      (List.filter (fun g => decide ¬(g.primary_weekday = pw ∧ g.primary_slot = ps))
        p.multi_day_groups)
      ++ [⟨pw, ps, [(w2, s2)]⟩] := by
    rw [e4]
    rw [dropReuseFromFirstGroup_append pw ps w1 s1 _ _ (by
      intro g hgmem
      have h' := List.of_mem_filter hgmem
      simp only [decide_eq_true_eq] at h'
      exact h')]
    congr 1
    rw [dropReuseFromFirstGroup, if_pos ⟨rfl, rfl⟩]
    have hfil : List.filter (fun x => decide ¬(x.1 = w1 ∧ x.2 = s1))
        [(w1, s1), (w2, s2)] = [(w2, s2)] := by
      simp only [List.filter_cons, List.filter_nil]
      rw [if_neg (by simp), if_pos (decide_eq_true h12)]
    rw [hfil]
    rw [if_neg (by simp)]
  refine ⟨?_, ?_, ?_, ?_⟩
  · unfold WeeklyRecommendation.get_slot
    dsimp only
    rw [find?_updateFirstSlot_self pw ps
        (fun x => { x with prep_days := max 1 (x.prep_days - 1) }) (fun x => ⟨rfl, rfl⟩),
      find?_updateFirstSlot_other h1
        (fun x => { x with reuse_from := none }) (fun x => ⟨rfl, rfl⟩)]
    unfold WeeklyRecommendation.get_slot at e1
    rw [e1]
    rfl
  · unfold WeeklyRecommendation.get_slot
    dsimp only
    rw [find?_updateFirstSlot_other
        (by rintro ⟨hw, hs⟩; exact h1 ⟨hw.symm, hs.symm⟩)
        (fun x => { x with prep_days := max 1 (x.prep_days - 1) }) (fun x => ⟨rfl, rfl⟩),
      find?_updateFirstSlot_self w1 s1
        (fun x => { x with reuse_from := none }) (fun x => ⟨rfl, rfl⟩)]
    unfold WeeklyRecommendation.get_slot at e2
    rw [e2]
    rfl
  · intro g hgmem
    rw [hgroups] at hgmem
    rcases List.mem_append.mp hgmem with hin | hin
    · exact hg g (List.mem_of_mem_filter hin)
    · rcases List.mem_singleton.mp hin with rfl
      intro hmem
      have heq := List.mem_singleton.mp hmem
      injection heq with hw hs
      exact h12 ⟨hw.symm, hs.symm⟩
  · unfold WeeklyRecommendation.get_slot
    dsimp only
    rw [find?_updateFirstSlot_other
        (by rintro ⟨hw, hs⟩; exact h2 ⟨hw.symm, hs.symm⟩)
        (fun x => { x with prep_days := max 1 (x.prep_days - 1) }) (fun x => ⟨rfl, rfl⟩),
      find?_updateFirstSlot_other
        (by rintro ⟨hw, hs⟩; exact h12 ⟨hw.symm, hs.symm⟩)
        (fun x => { x with reuse_from := none }) (fun x => ⟨rfl, rfl⟩)]
    unfold WeeklyRecommendation.get_slot at e3
    rw [e3]
    rfl

theorem C6_clear_multi_day_witness :
    ((((threeSlotPlan.set_multi_day "Montag" "Abendessen"
        [("Dienstag", "Abendessen"), ("Mittwoch", "Abendessen")]).2.clear_multi_day
          "Dienstag" "Abendessen").2.get_slot "Montag" "Abendessen").map
      (fun x => x.prep_days)) = some 2 :=
  (C6_clear_multi_day_reuse_slot threeSlotPlan "Montag" "Abendessen"
    "Dienstag" "Abendessen" "Mittwoch" "Abendessen"
    ⟨"Montag", "Abendessen", [reisScored], 0, none, 1⟩
    ⟨"Dienstag", "Abendessen", [], 0, none, 1⟩
    ⟨"Mittwoch", "Abendessen", [], 0, none, 1⟩
    (by with_unfolding_all decide) (by with_unfolding_all decide)
    (by with_unfolding_all decide) (by decide) (by decide) (by decide)
    (by intro g hgmem; simp [threeSlotPlan] at hgmem)).1

/-! ### Candidate-membership lemmas for the assignment pipeline -/

theorem buildFavCandidates_subset (used : List Nat) (bid : Nat) :
    ∀ (favs acc : List ScoredRecipe) (x : ScoredRecipe),
      x ∈ buildFavCandidates used bid favs acc → x ∈ acc ∨ x ∈ favs := by
  intro favs
  induction favs with
  | nil => intro acc x h; exact Or.inl h
  | cons f rest ih =>
    intro acc x h
    have key : buildFavCandidates used bid (f :: rest) acc
        = buildFavCandidates used bid rest (acc ++ [f])
      ∨ buildFavCandidates used bid (f :: rest) acc
        = buildFavCandidates used bid rest acc
      ∨ buildFavCandidates used bid (f :: rest) acc = acc := by
      rw [buildFavCandidates]
      dsimp only
      repeat' split
      all_goals first
        | exact Or.inr (Or.inr rfl)
        | exact Or.inl rfl
        | exact Or.inr (Or.inl rfl)
    rcases key with hk | hk | hk
    · rw [hk] at h
      rcases ih (acc ++ [f]) x h with hin | hin
      · rcases List.mem_append.mp hin with hin' | hin'
        · exact Or.inl hin'
        · have hxf : x = f := List.mem_singleton.mp hin'
          rw [hxf]
          exact Or.inr (List.mem_cons_self f rest)
      · exact Or.inr (List.mem_cons_of_mem f hin)
    · rw [hk] at h
      rcases ih acc x h with hin | hin
      · exact Or.inl hin
      · exact Or.inr (List.mem_cons_of_mem f hin)
    · rw [hk] at h
      exact Or.inl h

theorem firstPass_candidates (favs : List ScoredRecipe) (target : Nat) :
    ∀ (slots : List (String × String)) (used : List Nat) (assigned : Nat)
      (rec : SlotRecommendation), rec ∈ firstPass favs target slots used assigned →
      ∀ c ∈ rec.recommendations, c ∈ favs := by
  intro slots
  induction slots with
  | nil => intro used assigned rec h; cases h
  | cons ws rest ih =>
    obtain ⟨w, s⟩ := ws
    intro used assigned rec h c hc
    rw [firstPass] at h
    split at h
    · cases h
    · split at h
      · rename_i best hfind
        split at h
        · rename_i bid hbid
          rcases List.mem_cons.mp h with rfl | hmem
          · have hc' : c ∈ buildFavCandidates (bid :: used) bid favs [best] :=
              List.mem_of_mem_take hc
            rcases buildFavCandidates_subset (bid :: used) bid favs [best] c hc'
              with hin | hin
            · have : c = best := List.mem_singleton.mp hin
              rw [this]
              exact List.mem_of_find?_eq_some hfind
            · exact hin
          · exact ih (bid :: used) (assigned + 1) rec hmem c hc
        · exact ih used assigned rec h c hc
      · exact ih used assigned rec h c hc

theorem pickNews_subset :
    ∀ (news : List ScoredRecipe) (used : List String) (acc : List ScoredRecipe)
      (x : ScoredRecipe), x ∈ (pickNews news used acc).1 → x ∈ acc ∨ x ∈ news := by
  intro news
  induction news with
  | nil => intro used acc x h; exact Or.inl h
  | cons n rest ih =>
    intro used acc x h
    have key : (pickNews (n :: rest) used acc).1 = acc
      ∨ (∃ used', (pickNews (n :: rest) used acc).1 = (pickNews rest used' (acc ++ [n])).1)
      ∨ (pickNews (n :: rest) used acc).1 = (pickNews rest used acc).1 := by
      rw [pickNews]
      repeat' split
      all_goals first
        | exact Or.inl rfl
        | exact Or.inr (Or.inl ⟨_, rfl⟩)
        | exact Or.inr (Or.inr rfl)
    rcases key with hk | ⟨used', hk⟩ | hk
    · rw [hk] at h
      exact Or.inl h
    · rw [hk] at h
      rcases ih used' (acc ++ [n]) x h with hin | hin
      · rcases List.mem_append.mp hin with hin' | hin'
        · exact Or.inl hin'
        · have hxn : x = n := List.mem_singleton.mp hin'
          rw [hxn]
          exact Or.inr (List.mem_cons_self n rest)
      · exact Or.inr (List.mem_cons_of_mem n hin)
    · rw [hk] at h
      rcases ih used acc x h with hin | hin
      · exact Or.inl hin
      · exact Or.inr (List.mem_cons_of_mem n hin)

theorem backfillFavs_subset :
    ∀ (favs acc : List ScoredRecipe) (x : ScoredRecipe),
      x ∈ backfillFavs favs acc → x ∈ acc ∨ x ∈ favs := by
  intro favs
  induction favs with
  | nil => intro acc x h; exact Or.inl h
  | cons f rest ih =>
    intro acc x h
    have key : backfillFavs (f :: rest) acc = acc
      ∨ backfillFavs (f :: rest) acc = backfillFavs rest acc
      ∨ backfillFavs (f :: rest) acc = backfillFavs rest (acc ++ [f]) := by
      rw [backfillFavs]
      repeat' split
      all_goals first
        | exact Or.inl rfl
        | exact Or.inr (Or.inl rfl)
        | exact Or.inr (Or.inr rfl)
    rcases key with hk | hk | hk
    · rw [hk] at h
      exact Or.inl h
    · rw [hk] at h
      rcases ih acc x h with hin | hin
      · exact Or.inl hin
      · exact Or.inr (List.mem_cons_of_mem f hin)
    · rw [hk] at h
      rcases ih (acc ++ [f]) x h with hin | hin
      · rcases List.mem_append.mp hin with hin' | hin'
        · exact Or.inl hin'
        · have hxf : x = f := List.mem_singleton.mp hin'
          rw [hxf]
          exact Or.inr (List.mem_cons_self f rest)
      · exact Or.inr (List.mem_cons_of_mem f hin)

theorem secondPass_candidates (favs news : List ScoredRecipe)
    (keys : List (String × String)) :
    ∀ (slots : List (String × String)) (used : List String)
      (rec : SlotRecommendation), rec ∈ secondPass favs news keys slots used →
      ∀ c ∈ rec.recommendations, c ∈ favs ∨ c ∈ news := by
  intro slots
  induction slots with
  | nil => intro used rec h; cases h
  | cons ws rest ih =>
    obtain ⟨w, s⟩ := ws
    intro used rec h c hc
    rw [secondPass] at h
    split at h
    · exact ih used rec h c hc
    · rcases List.mem_cons.mp h with rfl | hmem
      · rcases backfillFavs_subset favs (pickNews news used []).1 c hc with hin | hin
        · rcases pickNews_subset news used [] c hin with hin' | hin'
          · cases hin'
          · exact Or.inr hin'
        · exact Or.inl hin
      · exact ih _ rec hmem c hc

theorem assign_candidates_mem (slots : List (String × String))
    (favs news : List ScoredRecipe) (share : ℚ) (rec : SlotRecommendation)
    (hrec : rec ∈ assignRecipesToSlots slots favs news share)
    (c : ScoredRecipe) (hc : c ∈ rec.recommendations) : c ∈ favs ∨ c ∈ news := by
  unfold assignRecipesToSlots at hrec
  rw [List.mem_mergeSort] at hrec
  rcases List.mem_append.mp hrec with hin | hin
  · exact Or.inl (firstPass_candidates favs _ slots [] 0 rec hin c hc)
  · exact secondPass_candidates favs news _ slots [] rec hin c hc

/-- A viable recipe with a truthy id is not blacklisted. -/
theorem viable_not_blacklisted (r : Recipe) (ctx : ScoringContext) (m : ℚ)
    (hv : (is_recipe_viable r ctx m).1 = true) (i : Nat) (hid : r.id = some i)
    (hi0 : i ≠ 0) : ctx.blacklisted_ids.contains i = false := by
  unfold is_recipe_viable at hv
  rw [hid] at hv
  dsimp only at hv
  by_cases hb : ctx.blacklisted_ids.contains i = true
  · rw [if_pos (by rw [hb, Bool.and_true]; exact decide_eq_true hi0)] at hv
    cases hv
  · simpa using hb

/-- Every scored favorite stems from a raw favorite that passed the
viability filter, keeping that recipe's id. -/
theorem scoreFavoritesRaw_origin (ctx : ScoringContext) :
    ∀ (favsRaw : List (Recipe × Nat)) (l : List ScoredRecipe),
      scoreFavoritesRaw ctx favsRaw = some l → ∀ sr ∈ l,
      ∃ rc ∈ favsRaw, sr.recipe_id = rc.1.id ∧
        (is_recipe_viable rc.1 ctx minObtainableRatio).1 = true := by
  intro favsRaw
  induction favsRaw with
  | nil =>
    intro l hl sr hsr
    rw [scoreFavoritesRaw] at hl
    cases hl
    cases hsr
  | cons rc rest ih =>
    obtain ⟨r, cook⟩ := rc
    intro l hl sr hsr
    rw [scoreFavoritesRaw] at hl
    split at hl
    · obtain ⟨x, hx, hx2⟩ := ih l hl sr hsr
      exact ⟨x, List.mem_cons_of_mem _ hx, hx2⟩
    · rename_i hviable
      split at hl
      · cases hl
      · rename_i sb hsb
        split at hl
        · cases hl
        · rename_i tail htail
          cases hl
          rcases List.mem_cons.mp hsr with rfl | hmem
          · refine ⟨(r, cook), List.mem_cons_self _ _, rfl, ?_⟩
            cases h' : (is_recipe_viable r ctx minObtainableRatio).1 with
            | false => exact absurd h' hviable
            | true => rfl
          · obtain ⟨x, hx, hx2⟩ := ih tail htail sr hmem
            exact ⟨x, List.mem_cons_of_mem _ hx, hx2⟩

/-- **C9.**  No recipe whose id carries a 1★ rating appears in any slot's
candidate list of a plan assembled from viability-filtered favorites and
scraped new recipes (which carry no id). -/
theorem C9_no_blacklisted_candidate (favsRaw : List (Recipe × Nat))
    (news favorites : List ScoredRecipe) (ctx : ScoringContext)
    (slots : List (String × String)) (share : ℚ)
    (hfav : score_favorites favsRaw ctx = some favorites)
    (hnews : ∀ n ∈ news, n.recipe_id = none)
    (hblack : ∀ i, ctx.recipe_ratings i = some 1 →
      ctx.blacklisted_ids.contains i = true)
    (hpos : ∀ rc ∈ favsRaw, rc.1.id ≠ some 0) :
    ∀ rec ∈ assignRecipesToSlots slots favorites news share,
      ∀ cand ∈ rec.recommendations, ∀ i, cand.recipe_id = some i →
        ctx.recipe_ratings i ≠ some 1 := by
  intro rec hrec cand hcand i hi hrat
  rcases assign_candidates_mem slots favorites news share rec hrec cand hcand
    with hin | hin
  · unfold score_favorites at hfav
    cases hraw : scoreFavoritesRaw ctx favsRaw with
    | none => rw [hraw] at hfav; cases hfav
    | some l =>
      rw [hraw] at hfav
      simp only [Option.map_some', Option.some.injEq] at hfav
      have hmem : cand ∈ l := by
        rw [← hfav] at hin
        exact (List.mem_mergeSort).mp hin
      obtain ⟨rc, hrcmem, hid, hviable⟩ := scoreFavoritesRaw_origin ctx favsRaw l
        hraw cand hmem
      have hrid : rc.1.id = some i := by rw [← hid]; exact hi
      have hi0 : i ≠ 0 := by
        intro h0
        exact hpos rc hrcmem (h0 ▸ hrid)
      have hnb := viable_not_blacklisted rc.1 ctx minObtainableRatio hviable i hrid hi0
      have := hblack i hrat
      rw [this] at hnb
      cases hnb
  · rw [hnews cand hin] at hi
    cases hi

theorem C9_no_blacklisted_candidate_witness :
    blacklistContext.recipe_ratings 2 ≠ some 1 :=
  C9_no_blacklisted_candidate [(breadRecipe, 1)] [] breadFavorites blacklistContext
    [("Montag", "Mittagessen")] targetFavoritesShare
    (by with_unfolding_all decide)
    (by intro n hn; cases hn)
    (by
      intro i h
      by_cases hi : i = 9
      · rw [hi]; rfl
      · exfalso
        have h' : (if i = 9 then some 1 else none) = some 1 := h
        rw [if_neg hi] at h'
        cases h')
    (by
      intro rc hrc
      have : rc = (breadRecipe, 1) := List.mem_singleton.mp hrc
      rw [this]
      decide)
    breadAssignedSlot (by with_unfolding_all decide)
    breadCandidate (by with_unfolding_all decide)
    2 (by with_unfolding_all decide)

theorem findUnusedFav_eq (favs : List ScoredRecipe) (used : List Nat) :
    findUnusedFav favs used = favs.find? (favFresh used) := by
  unfold findUnusedFav
  congr 1
  funext f
  simp only [favFresh, freshBy]
  cases f.recipe_id <;> rfl

theorem assign_expand (slots : List (String × String)) (favs news : List ScoredRecipe)
    (share : ℚ) :
    assignRecipesToSlots slots favs news share =
      ((firstPass favs ((⌊((slots.length : ℚ)) * share⌋).toNat) slots [] 0)
        ++ secondPass favs news
            ((firstPass favs ((⌊((slots.length : ℚ)) * share⌋).toNat) slots [] 0).map
              (fun r => (r.weekday, r.slot))) slots []).mergeSort slotLe := rfl

theorem countP_freshBy_cons {α : Type} [BEq α] [LawfulBEq α]
    (g : ScoredRecipe → Option α) (v : α → Bool) (used : List α) (b : α) :
    ∀ l : List ScoredRecipe, (l.filterMap g).Nodup →
      l.countP (freshBy g v used) ≤ l.countP (freshBy g v (b :: used)) + 1 := by
  intro l
  induction l with
  | nil => intro _; simp [List.countP_nil]
  | cons f rest ih =>
    intro hnd
    cases hgf : g f with
    | none =>
      have hrest : (rest.filterMap g).Nodup := by
        rwa [List.filterMap_cons_none hgf] at hnd
      have h1 : freshBy g v used f = false := by simp [freshBy, hgf]
      have h2 : freshBy g v (b :: used) f = false := by simp [freshBy, hgf]
      rw [List.countP_cons, List.countP_cons, h1, h2]
      simpa using ih hrest
    | some i =>
      have hcons : (f :: rest).filterMap g = i :: rest.filterMap g :=
        List.filterMap_cons_some hgf
      rw [hcons] at hnd
      have hni : i ∉ rest.filterMap g := (List.nodup_cons.mp hnd).1
      have hrest : (rest.filterMap g).Nodup := (List.nodup_cons.mp hnd).2
      by_cases hib : i = b
      · subst hib
        have hagree : rest.countP (freshBy g v used)
            = rest.countP (freshBy g v (i :: used)) := by
          apply List.countP_congr
          intro x hx
          cases hgx : g x with
          | none => simp [freshBy, hgx]
          | some j =>
            have hji : j ≠ i := by
              intro hji
              exact hni (hji ▸ List.mem_filterMap.mpr ⟨x, hx, hgx⟩)
            simp [freshBy, hgx, List.contains_cons, beq_iff_eq, hji]
        have hf2 : freshBy g v (i :: used) f = false := by
          simp [freshBy, hgf, List.contains_cons]
        rw [List.countP_cons, List.countP_cons, hagree, hf2]
        have hle1 : (if freshBy g v used f = true then 1 else 0) ≤ 1 := by
          split <;> omega
        omega
      · have hf : freshBy g v used f = freshBy g v (b :: used) f := by
          simp [freshBy, hgf, List.contains_cons, beq_iff_eq, hib]
        have := ih hrest
        rw [List.countP_cons, List.countP_cons, hf]
        omega

theorem buildFavCandidates_acc (used : List Nat) (bid : Nat) :
    ∀ (favs acc : List ScoredRecipe), ∃ suffix,
      buildFavCandidates used bid favs acc = acc ++ suffix := by
  intro favs
  induction favs with
  | nil => intro acc; exact ⟨[], by rw [buildFavCandidates]; simp⟩
  | cons f rest ih =>
    intro acc
    have key : buildFavCandidates used bid (f :: rest) acc
        = buildFavCandidates used bid rest (acc ++ [f])
      ∨ buildFavCandidates used bid (f :: rest) acc
        = buildFavCandidates used bid rest acc
      ∨ buildFavCandidates used bid (f :: rest) acc = acc := by
      rw [buildFavCandidates]
      dsimp only
      repeat' split
      all_goals first
        | exact Or.inl rfl
        | exact Or.inr (Or.inl rfl)
        | exact Or.inr (Or.inr rfl)
    rcases key with h | h | h
    · obtain ⟨sfx, hs⟩ := ih (acc ++ [f])
      exact ⟨[f] ++ sfx, by rw [h, hs, List.append_assoc]⟩
    · obtain ⟨sfx, hs⟩ := ih acc
      exact ⟨sfx, by rw [h, hs]⟩
    · exact ⟨[], by rw [h]; simp⟩

theorem backfillFavs_acc :
    ∀ (favs acc : List ScoredRecipe), ∃ suffix,
      backfillFavs favs acc = acc ++ suffix := by
  intro favs
  induction favs with
  | nil => intro acc; exact ⟨[], by rw [backfillFavs]; simp⟩
  | cons f rest ih =>
    intro acc
    have key : backfillFavs (f :: rest) acc = acc
      ∨ backfillFavs (f :: rest) acc = backfillFavs rest acc
      ∨ backfillFavs (f :: rest) acc = backfillFavs rest (acc ++ [f]) := by
      rw [backfillFavs]
      repeat' split
      all_goals first
        | exact Or.inl rfl
        | exact Or.inr (Or.inl rfl)
        | exact Or.inr (Or.inr rfl)
    rcases key with h | h | h
    · exact ⟨[], by rw [h]; simp⟩
    · obtain ⟨sfx, hs⟩ := ih acc
      exact ⟨sfx, by rw [h, hs]⟩
    · obtain ⟨sfx, hs⟩ := ih (acc ++ [f])
      exact ⟨[f] ++ sfx, by rw [h, hs, List.append_assoc]⟩

theorem pickNews_stable :
    ∀ (news : List ScoredRecipe) (used : List String) (acc : List ScoredRecipe),
      acc ≠ [] →
      (pickNews news used acc).1.head? = acc.head? ∧ (pickNews news used acc).2 = used := by
  intro news
  induction news with
  | nil => intro used acc h; rw [pickNews]; exact ⟨rfl, rfl⟩
  | cons n rest ih =>
    intro used acc hacc
    have hne : acc.isEmpty = false := by
      cases acc with
      | nil => exact absurd rfl hacc
      | cons a t => rfl
    rw [pickNews]
    split
    · exact ⟨rfl, rfl⟩
    · cases hurl : n.url with
      | none => exact ih used acc hacc
      | some u =>
        dsimp only
        split
        · have hused : (if acc.isEmpty = true then u :: used else used) = used := by
            rw [hne]; simp
          rw [hused]
          obtain ⟨h1, h2⟩ := ih used (acc ++ [n]) (by simp)
          refine ⟨?_, h2⟩
          rw [h1]
          cases acc with
          | nil => exact absurd rfl hacc
          | cons a t => rfl
        · exact ih used acc hacc

theorem pickNews_first :
    ∀ (news : List ScoredRecipe) (used : List String),
      (∃ n ∈ news, newFresh used n = true) →
      ∃ n₀ u₀, n₀ ∈ news ∧ n₀.url = some u₀ ∧
        (pickNews news used []).1.head? = some n₀ ∧
        (pickNews news used []).2 = u₀ :: used := by
  intro news
  induction news with
  | nil => intro used h; obtain ⟨n, hn, _⟩ := h; cases hn
  | cons n rest ih =>
    intro used hex
    rw [pickNews]
    rw [if_neg (by decide)]
    cases hurl : n.url with
    | some u =>
      dsimp only
      by_cases hcond : (u ≠ "" && !used.contains u) = true
      · rw [if_pos hcond]
        obtain ⟨h1, h2⟩ := pickNews_stable rest (u :: used) [n] (by simp)
        refine ⟨n, u, List.mem_cons_self n rest, hurl, ?_, ?_⟩
        · show (pickNews rest (u :: used) [n]).1.head? = some n
          rw [h1]; rfl
        · show (pickNews rest (u :: used) [n]).2 = u :: used
          rw [h2]
      · rw [if_neg hcond]
        have hex' : ∃ m ∈ rest, newFresh used m = true := by
          obtain ⟨m, hm, hfm⟩ := hex
          rcases List.mem_cons.mp hm with rfl | hm'
          · exact absurd (by simpa [newFresh, freshBy, hurl] using hfm) hcond
          · exact ⟨m, hm', hfm⟩
        obtain ⟨n₀, u₀, hmem, hurl₀, hh, hu⟩ := ih used hex'
        exact ⟨n₀, u₀, List.mem_cons_of_mem n hmem, hurl₀, hh, hu⟩
    | none =>
      dsimp only
      have hex' : ∃ m ∈ rest, newFresh used m = true := by
        obtain ⟨m, hm, hfm⟩ := hex
        rcases List.mem_cons.mp hm with rfl | hm'
        · exact absurd hfm (by simp [newFresh, freshBy, hurl])
        · exact ⟨m, hm', hfm⟩
      obtain ⟨n₀, u₀, hmem, hurl₀, hh, hu⟩ := ih used hex'
      exact ⟨n₀, u₀, List.mem_cons_of_mem n hmem, hurl₀, hh, hu⟩

theorem firstPass_exact (favs : List ScoredRecipe) (target : Nat)
    (hnew : ∀ f ∈ favs, f.is_new = false)
    (hnd : (favs.filterMap ScoredRecipe.recipe_id).Nodup) :
    ∀ (slots : List (String × String)) (used : List Nat) (assigned : Nat),
      target - assigned ≤ favs.countP (favFresh used) →
      target - assigned ≤ slots.length →
      (firstPass favs target slots used assigned).length = target - assigned ∧
      ∀ rec ∈ firstPass favs target slots used assigned,
        ∃ t, rec.top_recipe = some t ∧ t.is_new = false := by
  intro slots
  induction slots with
  | nil =>
    intro used assigned h1 h2
    rw [firstPass]
    refine ⟨?_, by intro rec h; cases h⟩
    simp only [List.length_nil] at h2 ⊢
    omega
  | cons p rest ih =>
    obtain ⟨w, s⟩ := p
    intro used assigned h1 h2
    by_cases hta : target ≤ assigned
    · rw [firstPass, if_pos hta]
      exact ⟨by simp; omega, by intro rec h; cases h⟩
    · have hpos : 0 < favs.countP (favFresh used) := by omega
      obtain ⟨x, hx, hfx⟩ := List.countP_pos.mp hpos
      have hsome : (favs.find? (favFresh used)).isSome = true :=
        List.find?_isSome.mpr ⟨x, hx, hfx⟩
      obtain ⟨best, hfind⟩ := Option.isSome_iff_exists.mp hsome
      have hbp : favFresh used best = true := List.find?_some hfind
      have hbm : best ∈ favs := List.mem_of_find?_eq_some hfind
      obtain ⟨bid, hbid, hbid0, hbused⟩ :
          ∃ bid, best.recipe_id = some bid ∧ bid ≠ 0 ∧ used.contains bid = false := by
        cases hb : best.recipe_id with
        | none => simp [favFresh, freshBy, hb] at hbp
        | some i =>
          simp only [favFresh, freshBy, hb, Bool.and_eq_true, Bool.not_eq_true',
            decide_eq_true_eq] at hbp
          exact ⟨i, rfl, hbp.1, hbp.2⟩
      have hkey : firstPass favs target ((w, s) :: rest) used assigned =
          { weekday := w, slot := s,
            recommendations :=
              (buildFavCandidates (bid :: used) bid favs [best]).take RECOMMENDATIONS_PER_SLOT,
            selected_index := 0, reuse_from := none, prep_days := 1 }
            :: firstPass favs target rest (bid :: used) (assigned + 1) := by
        rw [firstPass, if_neg hta, findUnusedFav_eq, hfind]
        dsimp only
        rw [hbid]
      rw [hkey]
      have hdec : favs.countP (favFresh used) ≤ favs.countP (favFresh (bid :: used)) + 1 :=
        countP_freshBy_cons ScoredRecipe.recipe_id (fun i => decide (i ≠ 0)) used bid favs hnd
      have h1' : target - (assigned + 1) ≤ favs.countP (favFresh (bid :: used)) := by omega
      have h2' : target - (assigned + 1) ≤ rest.length := by
        simp only [List.length_cons] at h2; omega
      obtain ⟨hlen, hmem⟩ := ih (bid :: used) (assigned + 1) h1' h2'
      refine ⟨by simp only [List.length_cons, hlen]; omega, ?_⟩
      intro rec hrec
      rcases List.mem_cons.mp hrec with rfl | hrec'
      · obtain ⟨suffix, hsuf⟩ := buildFavCandidates_acc (bid :: used) bid favs [best]
        refine ⟨best, ?_, hnew best hbm⟩
        show ((buildFavCandidates (bid :: used) bid favs [best]).take
          RECOMMENDATIONS_PER_SLOT).head? = some best
        rw [hsuf]
        rfl
      · exact hmem rec hrec'

theorem secondPass_all_new (favs news : List ScoredRecipe)
    (keys : List (String × String))
    (hnew : ∀ n ∈ news, n.is_new = true)
    (hnd : (news.filterMap ScoredRecipe.url).Nodup) :
    ∀ (slots : List (String × String)) (used : List String),
      slots.countP (fun p => !keys.contains p) ≤ news.countP (newFresh used) →
      ∀ rec ∈ secondPass favs news keys slots used,
        ∃ t, rec.top_recipe = some t ∧ t.is_new = true := by
  intro slots
  induction slots with
  | nil => intro used h rec hrec; rw [secondPass] at hrec; cases hrec
  | cons p rest ih =>
    obtain ⟨w, s⟩ := p
    intro used hcount rec hrec
    rw [secondPass] at hrec
    by_cases hk : keys.contains (w, s) = true
    · rw [if_pos hk] at hrec
      have hrest : rest.countP (fun p => !keys.contains p) ≤ news.countP (newFresh used) := by
        rw [List.countP_cons] at hcount
        simp only [hk, Bool.not_true] at hcount
        omega
      exact ih used hrest rec hrec
    · rw [if_neg hk] at hrec
      dsimp only at hrec
      have hc' : rest.countP (fun p => !keys.contains p) + 1 ≤ news.countP (newFresh used) := by
        rw [List.countP_cons] at hcount
        have hb : (!keys.contains (w, s)) = true := by
          simp only [Bool.not_eq_true'] at hk ⊢
          exact Bool.not_eq_true _ ▸ (Bool.eq_false_iff.mpr hk)
        rw [hb] at hcount
        simpa using hcount
      have hpos : 0 < news.countP (newFresh used) := by omega
      obtain ⟨m, hm, hfm⟩ := List.countP_pos.mp hpos
      obtain ⟨n₀, u₀, hn₀, hurl₀, hhead, hused⟩ := pickNews_first news used ⟨m, hm, hfm⟩
      rcases List.mem_cons.mp hrec with rfl | hrec'
      · obtain ⟨tail, htail⟩ : ∃ tail, (pickNews news used []).1 = n₀ :: tail := by
          cases hp : (pickNews news used []).1 with
          | nil => rw [hp] at hhead; cases hhead
          | cons a t =>
            rw [hp] at hhead
            injection hhead with h
            exact ⟨t, by rw [h]⟩
        obtain ⟨suffix, hsuf⟩ := backfillFavs_acc favs ((pickNews news used []).1)
        refine ⟨n₀, ?_, hnew n₀ hn₀⟩
        show (backfillFavs favs (pickNews news used []).1).head? = some n₀
        rw [hsuf, htail]
        rfl
      · rw [hused] at hrec'
        have hdec : news.countP (newFresh used) ≤ news.countP (newFresh (u₀ :: used)) + 1 :=
          countP_freshBy_cons ScoredRecipe.url (fun u => decide (u ≠ "")) used u₀ news hnd
        exact ih (u₀ :: used) (by omega) rec hrec'

theorem firstPass_keys_sublist (favs : List ScoredRecipe) (target : Nat) :
    ∀ (slots : List (String × String)) (used : List Nat) (assigned : Nat),
      ((firstPass favs target slots used assigned).map
        (fun r => (r.weekday, r.slot))).Sublist slots := by
  intro slots
  induction slots with
  | nil => intro used assigned; rw [firstPass]; simp
  | cons p rest ih =>
    obtain ⟨w, s⟩ := p
    intro used assigned
    rw [firstPass]
    dsimp only
    repeat' split
    all_goals first
      | exact List.nil_sublist _
      | exact List.Sublist.cons₂ _ (ih _ _)
      | exact (ih _ _).trans (List.sublist_cons_self _ _)

theorem secondPass_length (favs news : List ScoredRecipe)
    (keys : List (String × String)) :
    ∀ (slots : List (String × String)) (used : List String),
      (secondPass favs news keys slots used).length
        = slots.countP (fun p => !keys.contains p) := by
  intro slots
  induction slots with
  | nil => intro used; rw [secondPass]; rfl
  | cons p rest ih =>
    obtain ⟨w, s⟩ := p
    intro used
    rw [secondPass]
    by_cases hk : keys.contains (w, s) = true
    · rw [if_pos hk, List.countP_cons]
      simp only [hk, Bool.not_true]
      simp [ih]
    · rw [if_neg hk, List.countP_cons]
      have hb : keys.contains (w, s) = false := Bool.eq_false_iff.mpr hk
      simp only [hb, Bool.not_false]
      simp [ih]

theorem countP_contains_sublist {α : Type} [BEq α] [LawfulBEq α] :
    ∀ {keys slots : List α}, keys.Sublist slots → slots.Nodup →
      slots.countP (fun p => keys.contains p) = keys.length := by
  intro keys slots h
  induction h with
  | slnil => intro _; rfl
  | @cons l₁ l₂ a h ih =>
    intro hnd
    obtain ⟨ha, hnd'⟩ := List.nodup_cons.mp hnd
    rw [List.countP_cons]
    have hca : l₁.contains a = false := by
      rw [Bool.eq_false_iff]
      intro hc
      exact ha (h.subset (by simpa using hc))
    simp only [hca]
    simpa using ih hnd'
  | @cons₂ l₁ l₂ a h ih =>
    intro hnd
    obtain ⟨ha, hnd'⟩ := List.nodup_cons.mp hnd
    rw [List.countP_cons]
    have hcaa : (a :: l₁).contains a = true := by simp [List.contains_cons]
    have hagree : l₂.countP (fun p => (a :: l₁).contains p)
        = l₂.countP (fun p => l₁.contains p) := by
      apply List.countP_congr
      intro x hx
      have hxa : x ≠ a := fun hxa => ha (hxa ▸ hx)
      simp [List.contains_cons, beq_iff_eq, hxa]
    rw [hagree, ih hnd', hcaa]
    simp

theorem countP_not_contains {α : Type} [BEq α] [LawfulBEq α]
    (keys slots : List α) (h : keys.Sublist slots) (hnd : slots.Nodup) :
    slots.countP (fun p => !keys.contains p) = slots.length - keys.length := by
  have h1 := countP_contains_sublist h hnd
  have h2 := List.length_eq_countP_add_countP (fun p => keys.contains p) slots
  have h3 : slots.countP (fun a => decide ¬(keys.contains a = true))
      = slots.countP (fun p => !keys.contains p) :=
    List.countP_congr (by intro x hx; simp)
  omega

theorem assign_len (slots : List (String × String)) (favs news : List ScoredRecipe)
    (share : ℚ) (hnd : slots.Nodup) :
    (assignRecipesToSlots slots favs news share).length = slots.length := by
  have hsub := firstPass_keys_sublist favs ((⌊((slots.length : ℚ)) * share⌋).toNat) slots [] 0
  have hnc := countP_not_contains _ slots hsub hnd
  have hlen2 := secondPass_length favs news
    ((firstPass favs ((⌊((slots.length : ℚ)) * share⌋).toNat) slots [] 0).map
      (fun r => (r.weekday, r.slot))) slots []
  have hle : (firstPass favs ((⌊((slots.length : ℚ)) * share⌋).toNat) slots [] 0).length
      ≤ slots.length := by
    have h := hsub.length_le
    rwa [List.length_map] at h
  rw [assign_expand, List.length_mergeSort, List.length_append, hlen2, hnc, List.length_map]
  omega

/-- C3 (amended): for the 14 full-week slots, favorites_count + new_count
= 14 for every favorites/news input; and the realized favorites count hits
the target int(14 * 0.6) = 8 exactly whenever the inputs are well-formed
and rich enough: all favorites non-new with pairwise-distinct truthy ids,
at least 8 of them, all news new with pairwise-distinct urls, at least 6
with a nonempty url. -/
theorem C3_assignment_counts :
    (∀ favs news : List ScoredRecipe,
        favoritesCount (assignRecipesToSlots allSlots favs news targetFavoritesShare)
          + newCountOf (assignRecipesToSlots allSlots favs news targetFavoritesShare)
          = 14)
    ∧ ∀ favs news : List ScoredRecipe,
        (∀ f ∈ favs, f.is_new = false) →
        (favs.filterMap ScoredRecipe.recipe_id).Nodup →
        8 ≤ favs.countP (favFresh []) →
        (∀ n ∈ news, n.is_new = true) →
        (news.filterMap ScoredRecipe.url).Nodup →
        6 ≤ news.countP (newFresh []) →
        favoritesCount (assignRecipesToSlots allSlots favs news targetFavoritesShare) = 8 := by
  have hnodup : allSlots.Nodup := by with_unfolding_all decide
  have hlen14 : allSlots.length = 14 := by with_unfolding_all decide
  have htarget : (⌊((allSlots.length : ℚ)) * targetFavoritesShare⌋).toNat = 8 := by
    with_unfolding_all decide
  constructor
  · intro favs news
    have hlen := assign_len allSlots favs news targetFavoritesShare hnodup
    have hcle : favoritesCount (assignRecipesToSlots allSlots favs news targetFavoritesShare)
        ≤ (assignRecipesToSlots allSlots favs news targetFavoritesShare).length := by
      unfold favoritesCount
      exact List.countP_le_length _
    rw [newCountOf]
    omega
  · intro favs news hf1 hf2 hf3 hn1 hn2 hn3
    rw [assign_expand, htarget]
    unfold favoritesCount
    rw [List.Perm.countP_eq _ (List.mergeSort_perm _ slotLe), List.countP_append]
    have hfp := firstPass_exact favs 8 hf1 hf2 allSlots [] 0
      (by simpa using hf3) (by rw [hlen14]; omega)
    obtain ⟨hlen1, hmem1⟩ := hfp
    have hc1 : (firstPass favs 8 allSlots [] 0).countP
        (fun r => match r.top_recipe with | some t => !t.is_new | none => false)
        = (firstPass favs 8 allSlots [] 0).length := by
      rw [List.countP_eq_length]
      intro rec hrec
      obtain ⟨t, ht, htn⟩ := hmem1 rec hrec
      simp [ht, htn]
    have hsub := firstPass_keys_sublist favs 8 allSlots [] 0
    have hnc := countP_not_contains _ allSlots hsub hnodup
    have hkl : ((firstPass favs 8 allSlots [] 0).map (fun r => (r.weekday, r.slot))).length
        = 8 - 0 := by rw [List.length_map, hlen1]
    have hscount : allSlots.countP
        (fun p => !((firstPass favs 8 allSlots [] 0).map
          (fun r => (r.weekday, r.slot))).contains p)
        ≤ news.countP (newFresh []) := by
      rw [hnc, hkl, hlen14]
      omega
    have hsp := secondPass_all_new favs news
      ((firstPass favs 8 allSlots [] 0).map (fun r => (r.weekday, r.slot)))
      hn1 hn2 allSlots [] hscount
    have hc2 : (secondPass favs news
        ((firstPass favs 8 allSlots [] 0).map (fun r => (r.weekday, r.slot)))
        allSlots []).countP
        (fun r => match r.top_recipe with | some t => !t.is_new | none => false) = 0 := by
      rw [List.countP_eq_zero]
      intro rec hrec
      obtain ⟨t, ht, htn⟩ := hsp rec hrec
      simp [ht, htn]
    rw [hc1, hc2, hlen1]

theorem C3_assignment_counts_witness :
    favoritesCount (assignRecipesToSlots allSlots eightFavorites sixNews targetFavoritesShare)
      + newCountOf (assignRecipesToSlots allSlots eightFavorites sixNews targetFavoritesShare)
      = 14
    ∧ favoritesCount (assignRecipesToSlots allSlots eightFavorites sixNews targetFavoritesShare)
      = 8 :=
  ⟨C3_assignment_counts.1 eightFavorites sixNews,
   C3_assignment_counts.2 eightFavorites sixNews
     (by with_unfolding_all decide)
     (by with_unfolding_all decide)
     (by with_unfolding_all decide)
     (by with_unfolding_all decide)
     (by with_unfolding_all decide)
     (by with_unfolding_all decide)⟩

/-- C3 counterexample: with exactly one viable favorite and thirteen new
recipes, the generated full-week plan has favorites_count 1 and new_count
13 although favorites exist and the target is 8 - the realized favorites
count is not within one slot of the target. -/
theorem C3_counterexample :
    favoritesCount (assignRecipesToSlots allSlots oneFavorite thirteenNews targetFavoritesShare)
      = 1
    ∧ newCountOf (assignRecipesToSlots allSlots oneFavorite thirteenNews targetFavoritesShare)
      = 13
    ∧ oneFavorite ≠ []
    ∧ (⌊((allSlots.length : ℚ)) * targetFavoritesShare⌋).toNat = 8 := by
  with_unfolding_all decide
